import Mathlib

/-!
Verification of the log-forwarding normalization and default-output migration
logic of the cluster-logging-operator repository.

Two source files are embedded:
* `internal/migrations/migrate_clusterlogforwarder.go` — the `Migrations`
  namespace: `MigrateDefaultOutput`, `processPipelinesForLokiStack`,
  `lokiStackOutput`, `getInputTypeFromName`, `LokiStackURL`.
* the `k8shandler` normalization file — the `Legacy` namespace:
  `normalizeLogForwarding`, `gatherAndVerifyOutputRefs`, `verifyOutputSecret`.

Go slices become `List`, Go `nil` pointers become `Option`, Go string-typed
enums stay `String` constants, Go `sets.String` becomes a duplicate-free
`List String` (`insertOnce`), and `fmt.Sprintf("%d", i)` becomes `natDecimal`.
-/

/-- Insert a string into a set represented as a duplicate-free list
(the embedding of Go's `sets.String.Insert`). -/
def insertOnce (l : List String) (x : String) : List String :=
  if l.contains x then l else l ++ [x]

/-- Decimal digits of `n` (most significant first), accumulated onto `acc`.
Mirrors the rendering performed by Go's `fmt.Sprintf("%d", n)`. -/
def natDigitsAux (n : Nat) (acc : List Char) : List Char :=
  if h : n = 0 then acc
  else natDigitsAux (n / 10) (Nat.digitChar (n % 10) :: acc)
termination_by n
decreasing_by exact Nat.div_lt_self (Nat.pos_of_ne_zero h) (by decide)

/-- Decimal rendering of a natural number, as Go's `fmt.Sprintf("%d", n)`. -/
def natDecimal (n : Nat) : String :=
  if n = 0 then "0" else ⟨natDigitsAux n []⟩

/-- Numeric value of a decimal digit character. -/
def digitVal (c : Char) : Nat := c.toNat - '0'.toNat

/-- Decode a list of decimal digit characters back to a number. -/
def decodeDigits (l : List Char) : Nat :=
  l.foldl (fun a c => a * 10 + digitVal c) 0

namespace Migrations

/-- `loggingv1.OutputNameDefault`: the reserved default output name. -/
def OutputNameDefault : String := "default"

/-- `loggingv1.InputNameApplication`. -/
def InputNameApplication : String := "application"

/-- `loggingv1.InputNameInfrastructure`. -/
def InputNameInfrastructure : String := "infrastructure"

/-- `loggingv1.InputNameAudit`. -/
def InputNameAudit : String := "audit"

/-- `loggingv1.ReservedInputNames` (a `sets.String`; only membership is used). -/
def ReservedInputNames : List String :=
  [InputNameApplication, InputNameInfrastructure, InputNameAudit]

/-- `loggingv1.OutputTypeElasticsearch`. -/
def OutputTypeElasticsearch : String := "elasticsearch"

/-- `loggingv1.OutputTypeLoki`. -/
def OutputTypeLoki : String := "loki"

/-- `loggingv1.LogStoreTypeElasticsearch`. -/
def LogStoreTypeElasticsearch : String := "elasticsearch"

/-- `loggingv1.LogStoreTypeLokiStack`. -/
def LogStoreTypeLokiStack : String := "lokistack"

/-- `constants.OpenshiftNS`. External constant from the constants package
(not under src/); the exact literal is immaterial to the claims. -/
def OpenshiftNS : String := "openshift-logging"

/-- `constants.LogStoreURL`. External constant from the constants package
(not under src/); the exact literal is immaterial to the claims. -/
def LogStoreURL : String := "https://elasticsearch.openshift-logging.svc:9200"

/-- `constants.CollectorSecretName`. External constant from the constants
package (not under src/); the exact literal is immaterial to the claims. -/
def CollectorSecretName : String := "collector"

/-- `loggingv1.OutputSecretSpec`. -/
structure OutputSecretSpec where
  name : String
deriving DecidableEq, Repr

/-- The `loggingv1.Elasticsearch` tuning block attached to an output or to
`OutputDefaults`.  The migration code never inspects its fields, it only
copies the block around, so a single opaque field suffices. -/
structure ElasticsearchTuning where
  structuredTypeKey : String := ""
deriving DecidableEq, Repr

/-- `loggingv1.OutputSpec` (the fields read or written by the migration). -/
structure OutputSpec where
  name : String
  type : String
  url : String := ""
  secret : Option OutputSecretSpec := none
  elasticsearch : Option ElasticsearchTuning := none
deriving DecidableEq, Repr

/-- `loggingv1.PipelineSpec` (the fields read or written by the migration;
`DeepCopy` copies every field, so a clone is plain structure copy here). -/
structure PipelineSpec where
  name : String := ""
  inputRefs : List String := []
  outputRefs : List String := []
deriving DecidableEq, Repr

/-- `loggingv1.InputSpec`: only presence of the three source sub-blocks is
ever read (`input.Application != nil` etc.), so they are `Option Unit`. -/
structure InputSpec where
  name : String
  application : Option Unit := none
  infrastructure : Option Unit := none
  audit : Option Unit := none
deriving DecidableEq, Repr

/-- `loggingv1.OutputDefaults`. -/
structure OutputDefaults where
  elasticsearch : Option ElasticsearchTuning := none
deriving DecidableEq, Repr

/-- `loggingv1.ClusterLogForwarderSpec` (the fields read or written by the
migration). -/
structure ClusterLogForwarderSpec where
  inputs : List InputSpec := []
  outputs : List OutputSpec := []
  pipelines : List PipelineSpec := []
  outputDefaults : Option OutputDefaults := none
deriving DecidableEq, Repr

/-- `loggingv1.LokiStackStoreSpec`. -/
structure LokiStackStoreSpec where
  name : String := ""
deriving DecidableEq, Repr

/-- `loggingv1.LogStoreSpec` (type string plus the LokiStack block). -/
structure LogStoreSpec where
  type : String
  lokiStack : LokiStackStoreSpec := {}
deriving DecidableEq, Repr

/-- `lokiStackOutput`: deterministic per-tenant output name for an input. -/
def lokiStackOutput (inputName : String) : String :=
  if inputName = InputNameApplication then OutputNameDefault ++ "-loki-apps"
  else if inputName = InputNameInfrastructure then OutputNameDefault ++ "-loki-infra"
  else if inputName = InputNameAudit then OutputNameDefault ++ "-loki-audit"
  else OutputNameDefault ++ "-" ++ inputName

/-- Inner loop of `getInputTypeFromName`: scan declared inputs; on a name
match return the kind of whichever source sub-field is populated, otherwise
keep scanning (the Go loop falls through when no sub-field is set). -/
def inputTypeScan (inputName : String) : List InputSpec → String
  | [] => ""
  | i :: rest =>
    if i.name = inputName then
      if i.application.isSome then InputNameApplication
      else if i.infrastructure.isSome then InputNameInfrastructure
      else if i.audit.isSome then InputNameAudit
      else inputTypeScan inputName rest
    else inputTypeScan inputName rest

/-- `getInputTypeFromName`: reserved input names act as their own kind;
declared inputs resolve via their populated source sub-field; otherwise the
empty string is returned (with only a diagnostic log in the source). -/
def getInputTypeFromName (spec : ClusterLogForwarderSpec) (inputName : String) : String :=
  if ReservedInputNames.contains inputName then inputName
  else inputTypeScan inputName spec.inputs

/-- `LokiStackGatewayService`. -/
def LokiStackGatewayService : Option LogStoreSpec → String
  | none => ""
  | some ls => if ls.lokiStack.name = "" then "" else ls.lokiStack.name ++ "-gateway-http"

/-- `LokiStackURL`: URL of the LokiStack API for a tenant; empty when the
gateway service is unknown or the tenant is not a reserved input name.  (The
source binds the service name once; it is inlined here.) -/
def LokiStackURL (logStore : Option LogStoreSpec) (ns tenant : String) : String :=
  if LokiStackGatewayService logStore = "" then ""
  else if ¬ ReservedInputNames.contains tenant then ""
  else "https://" ++ LokiStackGatewayService logStore ++ "." ++ ns ++ ".svc:8080/api/logs/v1/" ++ tenant

/-- The clones generated for one `default`-referencing pipeline: one clone per
`inputRefs` entry (Go loop index `i` over `p.InputRefs`), restricted to that
input, with every `default` output ref rewritten and named pipelines
disambiguated with a `-<i>` suffix for `i > 0`. -/
def lokiClones (p : PipelineSpec) : List PipelineSpec :=
  p.inputRefs.enum.map fun ip =>
    { name := if p.name ≠ "" ∧ ip.1 > 0 then p.name ++ "-" ++ natDecimal ip.1 else p.name
      inputRefs := [ip.2]
      outputRefs := p.outputRefs.map fun r =>
        if r ≠ OutputNameDefault then r else lokiStackOutput ip.2 }

/-- The pipeline loop of `processPipelinesForLokiStack`: accumulates the
`needOutput` set and the output pipeline slice exactly as the Go loop does
(pass through pipelines that do not reference `default`; otherwise record all
their inputs and append the clones). -/
def lokiLoop : List PipelineSpec → List String → List PipelineSpec →
    List String × List PipelineSpec
  | [], need, pls => (need, pls)
  | p :: rest, need, pls =>
    if p.outputRefs.contains OutputNameDefault then
      lokiLoop rest (p.inputRefs.foldl insertOnce need) (pls ++ lokiClones p)
    else
      lokiLoop rest need (pls ++ [p])

/-- The synthesized per-tenant output for one referenced input. -/
def mkLokiOutput (logStore : LogStoreSpec) (ns : String)
    (spec : ClusterLogForwarderSpec) (input : String) : OutputSpec :=
  { name := lokiStackOutput input
    type := OutputTypeLoki
    url := LokiStackURL (some logStore) ns (getInputTypeFromName spec input) }

/-- Insert an output into a list sorted by name (ascending). -/
def insertSortedOutput (o : OutputSpec) : List OutputSpec → List OutputSpec
  | [] => [o]
  | x :: xs => if o.name ≤ x.name then o :: x :: xs else x :: insertSortedOutput o xs

/-- Sort outputs ascending by name.  The Go source uses `sort.Slice` with
`strings.Compare < 0`; any name-sorted rearrangement is a faithful embedding
(Go leaves the order of equal names unspecified). -/
def sortOutputsByName (l : List OutputSpec) : List OutputSpec :=
  l.foldr insertSortedOutput []

/-- `processPipelinesForLokiStack`: returns the (sorted) synthesized tenant
outputs and the fanned-out pipelines. -/
def processPipelinesForLokiStack (logStore : LogStoreSpec) (ns : String)
    (spec : ClusterLogForwarderSpec) : List OutputSpec × List PipelineSpec :=
  let np := lokiLoop spec.pipelines [] []
  (sortOutputsByName (np.1.map (mkLokiOutput logStore ns spec)), np.2)

/-- `NewDefaultOutput`. -/
def NewDefaultOutput (defaults : Option OutputDefaults) : OutputSpec :=
  let spec : OutputSpec :=
    { name := OutputNameDefault
      type := OutputTypeElasticsearch
      url := LogStoreURL
      secret := some { name := CollectorSecretName } }
  match defaults with
  | some d =>
    match d.elasticsearch with
    | some es => { spec with elasticsearch := some es }
    | none => spec
  | none => spec

/-- One replacement step of `MigrateDefaultOutput`: the running synthesized
default output absorbs the Elasticsearch tuning block of an encountered
`default`-named output (the source mutates the shared `defaultOutput`
variable), and the updated value is what replaces that output. -/
def mergeDefault (defaultOutput output : OutputSpec) : OutputSpec :=
  match output.elasticsearch with
  | some es => { defaultOutput with elasticsearch := some es }
  | none => defaultOutput

/-- The replacement loop of `MigrateDefaultOutput`, with the running
`defaultOutput` threaded through the iterations: each `default`-named output
first updates the running default (absorbing its Elasticsearch block, which
persists for later iterations) and is replaced by the updated value; other
outputs pass through.  Returns the final running default, the `replaced`
flag, and the rebuilt output list. -/
def replaceDefaultLoop : List OutputSpec → OutputSpec → OutputSpec × Bool × List OutputSpec
  | [], d => (d, false, [])
  | o :: rest, d =>
    if o.name = OutputNameDefault then
      ((replaceDefaultLoop rest (mergeDefault d o)).1, true,
        mergeDefault d o :: (replaceDefaultLoop rest (mergeDefault d o)).2.2)
    else
      ((replaceDefaultLoop rest d).1, (replaceDefaultLoop rest d).2.1,
        o :: (replaceDefaultLoop rest d).2.2)

/-- The replace-or-append block of `MigrateDefaultOutput`: the replacement
loop runs over all outputs; when no output carried the reserved name the
(then unchanged) synthesized default is appended. -/
def replaceOrAppendDefault (outputs : List OutputSpec) (d : OutputSpec) : List OutputSpec :=
  if (replaceDefaultLoop outputs d).2.1 = true then (replaceDefaultLoop outputs d).2.2
  else (replaceDefaultLoop outputs d).2.2 ++ [(replaceDefaultLoop outputs d).1]

/-- Whether `loggingv1.NewRoutes(pipelines).ByOutput` has a key for a name:
some pipeline lists it among its output refs. -/
def routesHasOutput (ps : List PipelineSpec) (name : String) : Bool :=
  ps.any fun p => p.outputRefs.contains name

/-- The pipeline synthesized by the empty-spec bootstrap: both built-in
sources routed to the reserved default output. -/
def bootPipeline : PipelineSpec :=
  { name := ""
    inputRefs := [InputNameApplication, InputNameInfrastructure]
    outputRefs := [OutputNameDefault] }

/-- First block of `MigrateDefaultOutput`: the empty-spec bootstrap
("ClusterLogging without ClusterLogForwarder").  In the source the nil check
on the log store sits inside the emptiness check; the two tests are
independent, so they are commuted here to ease case analysis. -/
def bootstrapStage (spec : ClusterLogForwarderSpec) :
    Option LogStoreSpec → ClusterLogForwarderSpec
  | none => spec
  | some ls =>
    if spec.pipelines = [] ∧ spec.inputs = [] ∧ spec.outputs = [] ∧ spec.outputDefaults = none then
      { spec with
        pipelines := [bootPipeline]
        outputs := if ls.type = LogStoreTypeElasticsearch then [NewDefaultOutput none] else spec.outputs }
    else spec

/-- Second block of `MigrateDefaultOutput`: the LokiStack fan-out. -/
def lokiStage (spec : ClusterLogForwarderSpec) : Option LogStoreSpec → ClusterLogForwarderSpec
  | some ls =>
    if ls.type = LogStoreTypeLokiStack then
      let op := processPipelinesForLokiStack ls OpenshiftNS spec
      { spec with outputs := spec.outputs ++ op.1, pipelines := op.2 }
    else spec
  | none => spec

/-- Third block of `MigrateDefaultOutput`: default-reference resolution.
When some pipeline references `default` and no log store is configured the
Go code only logs and returns the spec unchanged (there is no error return);
otherwise the synthesized default output replaces or joins the output list. -/
def defaultRefStage (spec : ClusterLogForwarderSpec) (logStore : Option LogStoreSpec) :
    ClusterLogForwarderSpec :=
  if routesHasOutput spec.pipelines OutputNameDefault then
    match logStore with
    | none => spec
    | some _ =>
      { spec with outputs := replaceOrAppendDefault spec.outputs (NewDefaultOutput spec.outputDefaults) }
  else spec

/-- `MigrateDefaultOutput`: the three sequential blocks of the source
function, in source order. -/
def MigrateDefaultOutput (spec : ClusterLogForwarderSpec)
    (logStore : Option LogStoreSpec) : ClusterLogForwarderSpec :=
  defaultRefStage (lokiStage (bootstrapStage spec logStore) logStore) logStore

/-- `MigrateClusterLogForwarderSpec`. -/
def MigrateClusterLogForwarderSpec (spec : ClusterLogForwarderSpec)
    (logStore : Option LogStoreSpec) : ClusterLogForwarderSpec :=
  MigrateDefaultOutput spec logStore

/-- Number of outputs carrying the reserved default name. -/
def defaultNameCount (outputs : List OutputSpec) : Nat :=
  outputs.countP fun o => o.name = OutputNameDefault

/-- The empty-spec bootstrap trigger: the condition under which
`MigrateDefaultOutput` synthesizes the default pipelines. -/
def emptyBootstrapTriggered (spec : ClusterLogForwarderSpec)
    (logStore : Option LogStoreSpec) : Prop :=
  spec.pipelines = [] ∧ spec.inputs = [] ∧ spec.outputs = [] ∧
    spec.outputDefaults = none ∧ logStore.isSome

instance (spec : ClusterLogForwarderSpec) (logStore : Option LogStoreSpec) :
    Decidable (emptyBootstrapTriggered spec logStore) :=
  inferInstanceAs (Decidable (spec.pipelines = [] ∧ spec.inputs = [] ∧ spec.outputs = [] ∧
    spec.outputDefaults = none ∧ logStore.isSome = true))

/-- Example spec used by the counterexample theorems: one pipeline that
references the reserved default output. -/
def exDefaultRefSpec : ClusterLogForwarderSpec :=
  { pipelines := [{ name := "p", inputRefs := [InputNameApplication],
                    outputRefs := [OutputNameDefault] }] }

/-- Example spec used by the counterexample theorems: two user-declared
outputs that both use the reserved default name. -/
def exDupDefaultSpec : ClusterLogForwarderSpec :=
  { outputs := [{ name := OutputNameDefault, type := OutputTypeElasticsearch, url := "https://a" },
                { name := OutputNameDefault, type := OutputTypeElasticsearch, url := "https://b" }] }

/-- Example spec used by the counterexample theorems: a single pipeline that
references the default output but lists no inputs; under a LokiStack store
the fan-out erases it, collapsing the spec to the empty spec. -/
def exNoInputSpec : ClusterLogForwarderSpec :=
  { pipelines := [{ name := "", inputRefs := [], outputRefs := [OutputNameDefault] }] }

/-- Example spec used by the counterexample theorems: a pipeline referencing
default from an input name that no declared input resolves to a built-in
kind. -/
def exUnresolvableSpec : ClusterLogForwarderSpec :=
  { pipelines := [{ name := "", inputRefs := ["myinput"], outputRefs := [OutputNameDefault] }] }

/-- Example named pipeline referencing the default output from all three
reserved inputs, used by witness theorems. -/
def exNamedPipe : PipelineSpec :=
  { name := "pipe"
    inputRefs := [InputNameApplication, InputNameInfrastructure, InputNameAudit]
    outputRefs := [OutputNameDefault] }

/-- Example LokiStack log store descriptor. -/
def exLokiStore : LogStoreSpec :=
  { type := LogStoreTypeLokiStack, lokiStack := { name := "lokistack-testing" } }

/-- Example Elasticsearch log store descriptor. -/
def exEsStore : LogStoreSpec := { type := LogStoreTypeElasticsearch }

/-- Modelled from the spec (§4.4 Tenant Fan-Out Migrator), for the refinement
claims: the per-tenant output name derived from an input, in the spec's own
words ("`default-loki-apps`, `default-loki-infra`, `default-loki-audit`, or
`default-<input-name>` for non-reserved input names"). -/
def specTenantOutputName (inputName : String) : String :=
  if inputName = "application" then "default-loki-apps"
  else if inputName = "infrastructure" then "default-loki-infra"
  else if inputName = "audit" then "default-loki-audit"
  else "default-" ++ inputName

/-- Modelled from the spec (§4.4): pipelines not referencing the reserved
default output pass through unchanged; a referencing pipeline yields one
clone per `inputRefs` entry in declaration order, restricted to that single
input, every reserved-default ref replaced by the per-tenant name, all other
refs untouched, and clones after the first of a named pipeline renamed
`<name>-<index>`. -/
def specFanOut (ps : List PipelineSpec) : List PipelineSpec :=
  ps.flatMap fun p =>
    if "default" ∈ p.outputRefs then
      (List.range p.inputRefs.length).map fun j =>
        let input := p.inputRefs.getD j ""
        { name := if p.name ≠ "" ∧ j > 0 then p.name ++ "-" ++ natDecimal j else p.name
          inputRefs := [input]
          outputRefs := p.outputRefs.map fun r =>
            if r = "default" then specTenantOutputName input else r }
    else [p]

end Migrations

namespace Legacy

/-- `constants.InternalOutputName`: the reserved internal output name of the
legacy forwarding API.  External constant (constants package is not under
src/); the exact literal is immaterial to the claims. -/
def InternalOutputName : String := "clo-default-output-es"

/-- `constants.DefaultAppPipelineName`.  External constant; exact literal
immaterial. -/
def DefaultAppPipelineName : String := "clo-default-app-pipeline"

/-- `constants.DefaultInfraPipelineName`.  External constant; exact literal
immaterial. -/
def DefaultInfraPipelineName : String := "clo-default-infra-pipeline"

/-- `constants.LogStoreService`.  External constant; exact literal
immaterial. -/
def LogStoreService : String := "elasticsearch.openshift-logging.svc:9200"

/-- `constants.CollectorSecretName` of the legacy package.  External
constant; exact literal immaterial. -/
def CollectorSecretName : String := "fluentd"

/-- `logging.LogStoreTypeElasticsearch` of the legacy API group. -/
def LogStoreTypeElasticsearch : String := "elasticsearch"

/-- `logforward.OutputTypeElasticsearch`. -/
def OutputTypeElasticsearch : String := "elasticsearch"

/-- `logforward.OutputTypeForward`. -/
def OutputTypeForward : String := "forward"

/-- `logforward.OutputTypeSyslog`. -/
def OutputTypeSyslog : String := "syslog"

/-- The `outputTypes` string set of the source file. -/
def outputTypes : List String := [OutputTypeElasticsearch, OutputTypeForward, OutputTypeSyslog]

/-- `logforward.LogSourceTypeApp`. -/
def LogSourceTypeApp : String := "logs.app"

/-- `logforward.LogSourceTypeInfra`. -/
def LogSourceTypeInfra : String := "logs.infra"

/-- `logforward.LogSourceTypeAudit`. -/
def LogSourceTypeAudit : String := "logs.audit"

/-- The `sourceTypes` string set of the source file. -/
def sourceTypes : List String := [LogSourceTypeApp, LogSourceTypeInfra, LogSourceTypeAudit]

/-- Output status states (string-typed in the source). -/
def OutputStateAccepted : String := "Accepted"

/-- `logforward.OutputStateDropped`. -/
def OutputStateDropped : String := "Dropped"

/-- `logforward.PipelineStateAccepted`. -/
def PipelineStateAccepted : String := "Accepted"

/-- `logforward.PipelineStateDegraded`. -/
def PipelineStateDegraded : String := "Degraded"

/-- `logforward.PipelineStateDropped`. -/
def PipelineStateDropped : String := "Dropped"

/-- `logforward.OutputSecretSpec`. -/
structure OutputSecretSpec where
  name : String
deriving DecidableEq, Repr

/-- `logforward.OutputSpec` of the legacy API. -/
structure OutputSpec where
  name : String := ""
  type : String := ""
  endpoint : String := ""
  secret : Option OutputSecretSpec := none
deriving DecidableEq, Repr

/-- `logforward.PipelineSpec` of the legacy API. -/
structure PipelineSpec where
  name : String := ""
  sourceType : String := ""
  outputRefs : List String := []
deriving DecidableEq, Repr

/-- `logforward.ForwardingSpec`. -/
structure ForwardingSpec where
  disableDefaultForwarding : Bool := false
  outputs : List OutputSpec := []
  pipelines : List PipelineSpec := []
deriving DecidableEq, Repr

/-- A status condition `{type, reason, message}`. -/
structure Condition where
  condType : String
  reason : String
  message : String := ""
deriving DecidableEq, Repr

/-- `logforward.OutputStatus`. -/
structure OutputStatus where
  name : String
  state : String := ""
  conditions : List Condition := []
deriving DecidableEq, Repr

/-- `logforward.PipelineStatus`. -/
structure PipelineStatus where
  name : String
  state : String := ""
  conditions : List Condition := []
deriving DecidableEq, Repr

/-- Outcome of `clusterRequest.GetSecret(name)`: the secret with its data
keys, a not-found error, or any other (transport) error.  The source only
reads key presence in `secret.Data`, so the payload is the key list; on both
error outcomes the returned secret pointer is nil. -/
inductive SecretLookupResult where
  | ok (dataKeys : List String)
  | notFound
  | failed
deriving DecidableEq, Repr

/-- Condition reasons (string-typed constants of the legacy API). -/
def reasonMissingName : String := "MissingName"

/-- `OutputConditionReasonReservedNameConflict` / pipeline counterpart. -/
def reasonReservedNameConflict : String := "ReservedNameConflict"

/-- `OutputConditionReasonNonUniqueName`. -/
def reasonNonUniqueName : String := "NonUniqueName"

/-- `PipelineConditionReasonUniqueName`. -/
def reasonUniqueName : String := "UniqueName"

/-- `OutputConditionReasonMissingType`. -/
def reasonMissingType : String := "MissingType"

/-- `OutputConditionReasonUnrecognizedType`. -/
def reasonUnrecognizedType : String := "UnrecognizedType"

/-- `OutputConditionReasonMissingEndpoint`. -/
def reasonMissingEndpoint : String := "MissingEndpoint"

/-- `OutputConditionReasonMissingSecretName`. -/
def reasonMissingSecretName : String := "MissingSecretName"

/-- `OutputConditionReasonSecretDoesNotExist`. -/
def reasonSecretDoesNotExist : String := "SecretDoesNotExist"

/-- `OutputConditionReasonSecretMissingSharedKey`. -/
def reasonSecretMissingSharedKey : String := "SecretMissingSharedKey"

/-- `PipelineConditionReasonMissingSource`. -/
def reasonMissingSource : String := "MissingSource"

/-- `PipelineConditionReasonUnrecognizedSourceType`. -/
def reasonUnrecognizedSourceType : String := "UnrecognizedSourceType"

/-- `PipelineConditionReasonUnrecognizedOutputRef`. -/
def reasonUnrecognizedOutputRef : String := "UnrecognizedOutputRef"

/-- `PipelineConditionReasonMissingOutputs`. -/
def reasonMissingOutputs : String := "MissingOutputs"

/-- Condition types. -/
def condTypeName : String := "Name"

/-- `OutputConditionTypeType`. -/
def condTypeType : String := "Type"

/-- `OutputConditionTypeEndpoint`. -/
def condTypeEndpoint : String := "Endpoint"

/-- `OutputConditionTypeSecret` / pipeline secret condition type. -/
def condTypeSecret : String := "Secret"

/-- `PipelineConditionTypeSourceType`. -/
def condTypeSourceType : String := "SourceType"

/-- `PipelineConditionTypeOutputRef`. -/
def condTypeOutputRef : String := "OutputRef"

/-- `fmt.Sprintf("output[%d]", i)`. -/
def outputIdxName (i : Nat) : String := "output[" ++ natDecimal i ++ "]"

/-- `fmt.Sprintf("pipeline[%d]", i)`. -/
def pipelineIdxName (i : Nat) : String := "pipeline[" ++ natDecimal i ++ "]"

/-- The name-related conditions accumulated for one declared output (first
three checks of `gatherAndVerifyOutputRefs`, in source order). -/
def outputNameConds (refs : List String) (o : OutputSpec) : List Condition :=
  (if o.name = "" then [{ condType := condTypeName, reason := reasonMissingName }] else []) ++
  (if o.name = InternalOutputName then [{ condType := condTypeName, reason := reasonReservedNameConflict }] else []) ++
  (if refs.contains o.name then
      [{ condType := condTypeName
         reason := reasonNonUniqueName
         message := "The output name is not unique among all defined outputs." }]
    else [])

/-- The secret-related conditions for one declared output: missing secret
name, secret not found, and the `verifyOutputSecret` shared-key rule for
`forward` outputs (exactly one lookup per output that declares a secret). -/
def outputSecretConds (lookup : String → SecretLookupResult) (o : OutputSpec) : List Condition :=
  match o.secret with
  | none => []
  | some sec =>
    if sec.name = "" then [{ condType := condTypeSecret, reason := reasonMissingSecretName }]
    else
      match lookup sec.name with
      | .notFound => [{ condType := condTypeSecret, reason := reasonSecretDoesNotExist }]
      | .failed => []
      | .ok keys =>
        if o.type = OutputTypeForward ∧ ¬ keys.contains "shared_key" then
          [{ condType := condTypeSecret, reason := reasonSecretMissingSharedKey }]
        else []

/-- All conditions accumulated for one declared output, flattened in the
source's sequential order: name checks, type checks, endpoint check, secret
checks. -/
def outputConds (lookup : String → SecretLookupResult) (refs : List String)
    (o : OutputSpec) : List Condition :=
  outputNameConds refs o ++
  (if o.type = "" then [{ condType := condTypeType, reason := reasonMissingType }] else []) ++
  (if ¬ outputTypes.contains o.type then [{ condType := condTypeType, reason := reasonUnrecognizedType }] else []) ++
  (if o.endpoint = "" then [{ condType := condTypeEndpoint, reason := reasonMissingEndpoint }] else []) ++
  outputSecretConds lookup o

/-- The display name of an output's status record: each failed name check in
the source overwrites the name with `output[i]`. -/
def outputDisplayName (refs : List String) (i : Nat) (o : OutputSpec) : String :=
  if o.name = "" ∨ o.name = InternalOutputName ∨ refs.contains o.name then
    outputIdxName i
  else o.name

/-- Accumulator of `gatherAndVerifyOutputRefs`: the accepted-name set, the
accepted outputs, and the per-output status records. -/
structure GatherAcc where
  refs : List String := []
  outputs : List OutputSpec := []
  statuses : List OutputStatus := []
deriving DecidableEq, Repr

/-- One iteration of the `gatherAndVerifyOutputRefs` loop. -/
def gatherStep (lookup : String → SecretLookupResult) (acc : GatherAcc)
    (i : Nat) (o : OutputSpec) : GatherAcc :=
  let conds := outputConds lookup acc.refs o
  let dname := outputDisplayName acc.refs i o
  if conds = [] then
    { refs := insertOnce acc.refs o.name
      outputs := acc.outputs ++ [o]
      statuses := acc.statuses ++ [{ name := dname, state := OutputStateAccepted, conditions := [] }] }
  else
    { acc with statuses := acc.statuses ++ [{ name := dname, state := OutputStateDropped, conditions := conds }] }

/-- The `gatherAndVerifyOutputRefs` loop, carrying the index. -/
def gatherGo (lookup : String → SecretLookupResult) :
    GatherAcc → Nat → List OutputSpec → GatherAcc
  | acc, _, [] => acc
  | acc, i, o :: rest => gatherGo lookup (gatherStep lookup acc i o) (i + 1) rest

/-- `gatherAndVerifyOutputRefs`. -/
def gatherAndVerifyOutputRefs (lookup : String → SecretLookupResult)
    (outputs : List OutputSpec) : GatherAcc :=
  gatherGo lookup {} 0 outputs

/-- The name/source conditions accumulated for one declared pipeline before
any output-ref resolution, flattened in source order. -/
def pipelinePreConds (names : List String) (p : PipelineSpec) : List Condition :=
  (if p.name = "" then [{ condType := condTypeName, reason := reasonMissingName }] else []) ++
  (if p.name = DefaultAppPipelineName ∨ p.name = DefaultInfraPipelineName then
      [{ condType := condTypeName, reason := reasonReservedNameConflict }] else []) ++
  (if names.contains p.name then [{ condType := condTypeName, reason := reasonUniqueName }] else []) ++
  (if p.sourceType = "" then [{ condType := condTypeSourceType, reason := reasonMissingSource }] else []) ++
  (if ¬ sourceTypes.contains p.sourceType then
      [{ condType := condTypeSourceType, reason := reasonUnrecognizedSourceType }] else [])

/-- Display name of a pipeline's status record (renamed on any failed name
check). -/
def pipelineDisplayName (names : List String) (i : Nat) (p : PipelineSpec) : String :=
  if p.name = "" ∨ p.name = DefaultAppPipelineName ∨ p.name = DefaultInfraPipelineName ∨
      names.contains p.name then
    pipelineIdxName i
  else p.name

/-- Accumulator of the pipeline loop of `normalizeLogForwarding`. -/
structure PipeAcc where
  names : List String := []
  sources : List String := []
  pipelines : List PipelineSpec := []
  statuses : List PipelineStatus := []
deriving DecidableEq, Repr

/-- The status record produced for a pipeline that passed the name/source
checks, after its refs are resolved against the accepted-output name set: one
`UnrecognizedOutputRef` condition per missing ref; `Dropped` plus
`MissingOutputs` when no ref survives; `Degraded` plus `MissingOutputs` when
some but not all survive; `Accepted` otherwise. -/
def pipelineResolvedStatus (outNames : List String) (dname : String)
    (p : PipelineSpec) : PipelineStatus :=
  let unrecognized : List Condition :=
    (p.outputRefs.filter fun r => ¬ outNames.contains r = true).map fun _ =>
      { condType := condTypeOutputRef, reason := reasonUnrecognizedOutputRef }
  if (p.outputRefs.filter fun r => outNames.contains r) = [] then
    { name := dname, state := PipelineStateDropped,
      conditions := unrecognized ++ [{ condType := condTypeOutputRef, reason := reasonMissingOutputs }] }
  else if (p.outputRefs.filter fun r => outNames.contains r).length ≠ p.outputRefs.length then
    { name := dname, state := PipelineStateDegraded,
      conditions := unrecognized ++ [{ condType := condTypeOutputRef, reason := reasonMissingOutputs }] }
  else
    { name := dname, state := PipelineStateAccepted, conditions := unrecognized }

/-- One iteration of the pipeline loop of `normalizeLogForwarding`: on any
name/source condition the pipeline is dropped before ref resolution;
otherwise its refs are resolved against the accepted-output name set and the
pipeline is kept with the surviving refs (Accepted or Degraded) or dropped
when no ref survives. -/
def pipelineStep (outNames : List String) (acc : PipeAcc) (i : Nat)
    (p : PipelineSpec) : PipeAcc :=
  let pre := pipelinePreConds acc.names p
  let dname := pipelineDisplayName acc.names i p
  if pre = [] then
    if (p.outputRefs.filter fun r => outNames.contains r) = [] then
      { acc with statuses := acc.statuses ++ [pipelineResolvedStatus outNames dname p] }
    else
      { names := insertOnce acc.names p.name
        sources := insertOnce acc.sources p.sourceType
        pipelines := acc.pipelines ++
          [{ name := p.name, sourceType := p.sourceType,
             outputRefs := p.outputRefs.filter fun r => outNames.contains r }]
        statuses := acc.statuses ++ [pipelineResolvedStatus outNames dname p] }
  else
    { acc with statuses := acc.statuses ++
        [{ name := dname, state := PipelineStateDropped, conditions := pre }] }

/-- The pipeline loop of `normalizeLogForwarding`, carrying the index. -/
def pipelinesGo (outNames : List String) :
    PipeAcc → Nat → List PipelineSpec → PipeAcc
  | acc, _, [] => acc
  | acc, i, p :: rest => pipelinesGo outNames (pipelineStep outNames acc i p) (i + 1) rest

/-- The spec synthesized by the bootstrap branch of `normalizeLogForwarding`
(operator-managed log store, no user pipelines). -/
def bootstrapForwardingSpec : ForwardingSpec :=
  { outputs := [{ name := InternalOutputName, type := OutputTypeElasticsearch,
                  endpoint := LogStoreService, secret := some { name := CollectorSecretName } }]
    pipelines := [{ name := DefaultAppPipelineName, sourceType := LogSourceTypeApp,
                    outputRefs := [InternalOutputName] },
                  { name := DefaultInfraPipelineName, sourceType := LogSourceTypeInfra,
                    outputRefs := [InternalOutputName] }] }

/-- `normalizeLogForwarding`, as a function of the cluster's log-store type,
the forwarding-enabled annotation, the presence of a forwarding request, the
secret lookup and the declared forwarding spec; returns the normalized spec.
(The source also mutates a status object; the status records are exposed via
`gatherAndVerifyOutputRefs` and `pipelinesGo`.) -/
def normalizeLogForwarding (logStoreType : Option String) (enabled hasRequest : Bool)
    (lookup : String → SecretLookupResult) (fspec : ForwardingSpec) : ForwardingSpec :=
  if logStoreType = some LogStoreTypeElasticsearch ∧
      ¬ fspec.disableDefaultForwarding ∧ fspec.pipelines = [] then
    bootstrapForwardingSpec
  else if ¬ enabled ∨ ¬ hasRequest then {}
  else
    let g := gatherAndVerifyOutputRefs lookup fspec.outputs
    let pr := pipelinesGo g.refs {} 0 fspec.pipelines
    { disableDefaultForwarding := fspec.disableDefaultForwarding
      outputs := g.outputs
      pipelines := pr.pipelines }

end Legacy

/-! ### Helper lemmas: decimal rendering -/

theorem natDigitsAux_zero (acc : List Char) : natDigitsAux 0 acc = acc := by
  unfold natDigitsAux
  simp

theorem natDigitsAux_pos (n : Nat) (acc : List Char) (h : n ≠ 0) :
    natDigitsAux n acc = natDigitsAux (n / 10) (Nat.digitChar (n % 10) :: acc) := by
  conv_lhs => unfold natDigitsAux
  simp [h]

theorem natDigitsAux_eq_append (n : Nat) :
    ∀ acc, natDigitsAux n acc = natDigitsAux n [] ++ acc := by
  induction n using Nat.strong_induction_on with
  | _ n ih =>
    intro acc
    by_cases h : n = 0
    · subst h
      simp [natDigitsAux_zero]
    · have hlt : n / 10 < n := Nat.div_lt_self (Nat.pos_of_ne_zero h) (by decide)
      rw [natDigitsAux_pos n acc h, natDigitsAux_pos n [] h,
        ih (n / 10) hlt (Nat.digitChar (n % 10) :: acc),
        ih (n / 10) hlt (Nat.digitChar (n % 10) :: [])]
      simp

theorem natDigitsAux_length (n : Nat) (acc : List Char) :
    acc.length ≤ (natDigitsAux n acc).length := by
  induction n using Nat.strong_induction_on generalizing acc with
  | _ n ih =>
    by_cases h : n = 0
    · subst h
      simp [natDigitsAux_zero]
    · have hlt : n / 10 < n := Nat.div_lt_self (Nat.pos_of_ne_zero h) (by decide)
      rw [natDigitsAux_pos n acc h]
      calc acc.length ≤ (Nat.digitChar (n % 10) :: acc).length := by simp
        _ ≤ _ := ih (n / 10) hlt _

theorem natDigitsAux_ne_nil (n : Nat) (h : n ≠ 0) : natDigitsAux n [] ≠ [] := by
  rw [natDigitsAux_pos n [] h]
  intro hc
  have := natDigitsAux_length (n / 10) (Nat.digitChar (n % 10) :: [])
  rw [hc] at this
  simp at this

theorem digitVal_digitChar (d : Nat) (h : d < 10) : digitVal (Nat.digitChar d) = d := by
  revert h
  revert d
  decide

theorem decodeDigits_append_singleton (l : List Char) (c : Char) :
    decodeDigits (l ++ [c]) = decodeDigits l * 10 + digitVal c := by
  unfold decodeDigits
  rw [List.foldl_append]
  simp

theorem decodeDigits_natDigitsAux (n : Nat) (h : n ≠ 0) :
    decodeDigits (natDigitsAux n []) = n := by
  induction n using Nat.strong_induction_on with
  | _ n ih =>
    rw [natDigitsAux_pos n [] h, natDigitsAux_eq_append (n / 10)]
    by_cases h10 : n / 10 = 0
    · rw [h10, natDigitsAux_zero, decodeDigits_append_singleton,
        digitVal_digitChar (n % 10) (Nat.mod_lt n (by decide)),
        show decodeDigits [] = 0 from rfl]
      have := Nat.div_add_mod n 10
      omega
    · have hlt : n / 10 < n := Nat.div_lt_self (Nat.pos_of_ne_zero h) (by decide)
      rw [decodeDigits_append_singleton, ih (n / 10) hlt h10,
        digitVal_digitChar (n % 10) (Nat.mod_lt n (by decide))]
      omega

theorem natDecimal_pos_inj (m n : Nat) (hm : m ≠ 0) (hn : n ≠ 0)
    (h : natDecimal m = natDecimal n) : m = n := by
  unfold natDecimal at h
  rw [if_neg hm, if_neg hn] at h
  have hdata : natDigitsAux m [] = natDigitsAux n [] := congrArg String.data h
  calc m = decodeDigits (natDigitsAux m []) := (decodeDigits_natDigitsAux m hm).symm
    _ = decodeDigits (natDigitsAux n []) := by rw [hdata]
    _ = n := decodeDigits_natDigitsAux n hn

theorem natDecimal_length_pos (n : Nat) : 0 < (natDecimal n).length := by
  unfold natDecimal
  by_cases h : n = 0
  · rw [if_pos h]
    decide
  · rw [if_neg h]
    show 0 < (natDigitsAux n []).length
    cases hc : natDigitsAux n [] with
    | nil => exact absurd hc (natDigitsAux_ne_nil n h)
    | cons a l => simp

/-! ### Helper lemmas: set-as-list insertion -/

theorem mem_insertOnce (l : List String) (x y : String) :
    y ∈ insertOnce l x ↔ y ∈ l ∨ y = x := by
  unfold insertOnce
  by_cases h : l.contains x
  · rw [if_pos h]
    constructor
    · exact Or.inl
    · rintro (hy | rfl)
      · exact hy
      · simpa using h
  · rw [if_neg h]
    simp

theorem nodup_insertOnce (l : List String) (x : String) (h : l.Nodup) :
    (insertOnce l x).Nodup := by
  unfold insertOnce
  by_cases hc : l.contains x
  · rwa [if_pos hc]
  · rw [if_neg hc]
    have hx : x ∉ l := by simpa using hc
    simp [List.nodup_append, h, hx]

theorem insertOnce_of_not_mem (l : List String) (x : String) (h : ¬ l.contains x) :
    insertOnce l x = l ++ [x] := by
  unfold insertOnce
  rw [if_neg h]

theorem mem_foldl_insertOnce (l : List String) :
    ∀ (acc : List String) (y : String),
      y ∈ l.foldl insertOnce acc ↔ y ∈ acc ∨ y ∈ l := by
  induction l with
  | nil => simp
  | cons a l ih =>
    intro acc y
    rw [List.foldl_cons, ih (insertOnce acc a) y, mem_insertOnce]
    simp only [List.mem_cons]
    tauto

theorem nodup_foldl_insertOnce (l : List String) :
    ∀ acc : List String, acc.Nodup → (l.foldl insertOnce acc).Nodup := by
  induction l with
  | nil => intro acc h; simpa using h
  | cons a l ih =>
    intro acc h
    rw [List.foldl_cons]
    exact ih (insertOnce acc a) (nodup_insertOnce acc a h)

/-! ### Helper lemmas: sorting the synthesized outputs -/

namespace Migrations

theorem perm_insertSortedOutput (o : OutputSpec) (l : List OutputSpec) :
    List.Perm (insertSortedOutput o l) (o :: l) := by
  induction l with
  | nil => simp [insertSortedOutput]
  | cons x xs ih =>
    unfold insertSortedOutput
    by_cases h : o.name ≤ x.name
    · rw [if_pos h]
    · rw [if_neg h]
      exact (List.Perm.cons x ih).trans (List.Perm.swap o x xs)

theorem sorted_insertSortedOutput (o : OutputSpec) (l : List OutputSpec)
    (h : l.Pairwise fun a b => a.name ≤ b.name) :
    (insertSortedOutput o l).Pairwise fun a b => a.name ≤ b.name := by
  induction l with
  | nil => simp [insertSortedOutput]
  | cons x xs ih =>
    rw [List.pairwise_cons] at h
    unfold insertSortedOutput
    by_cases hle : o.name ≤ x.name
    · rw [if_pos hle]
      rw [List.pairwise_cons]
      refine ⟨?_, List.pairwise_cons.mpr h⟩
      intro b hb
      rcases List.mem_cons.mp hb with rfl | hb
      · exact hle
      · exact le_trans hle (h.1 b hb)
    · rw [if_neg hle]
      rw [List.pairwise_cons]
      constructor
      · intro b hb
        have := (perm_insertSortedOutput o xs).mem_iff.mp hb
        rcases List.mem_cons.mp this with rfl | hb2
        · exact le_of_not_le hle
        · exact h.1 b hb2
      · exact ih h.2

theorem perm_sortOutputsByName (l : List OutputSpec) :
    List.Perm (sortOutputsByName l) l := by
  induction l with
  | nil => simp [sortOutputsByName]
  | cons x xs ih =>
    unfold sortOutputsByName
    rw [List.foldr_cons]
    exact (perm_insertSortedOutput x _).trans (List.Perm.cons x ih)

theorem sorted_sortOutputsByName (l : List OutputSpec) :
    (sortOutputsByName l).Pairwise fun a b => a.name ≤ b.name := by
  induction l with
  | nil => simp [sortOutputsByName]
  | cons x xs ih =>
    unfold sortOutputsByName
    rw [List.foldr_cons]
    exact sorted_insertSortedOutput x _ ih

/-! ### Helper lemmas: the LokiStack fan-out -/

theorem specTenantOutputName_eq (i : String) :
    specTenantOutputName i = lokiStackOutput i := by
  unfold specTenantOutputName lokiStackOutput OutputNameDefault
    InputNameApplication InputNameInfrastructure InputNameAudit
  split_ifs <;> rfl

theorem lokiStackOutput_ne_default (i : String) :
    lokiStackOutput i ≠ OutputNameDefault := by
  have h7 : OutputNameDefault.length = 7 := by decide
  unfold lokiStackOutput
  split_ifs <;> intro h <;> have hl := congrArg String.length h
  · revert h; decide
  · revert h; decide
  · revert h; decide
  · rw [String.length_append, String.length_append, h7] at hl
    have h1 : ("-" : String).length = 1 := by decide
    omega

theorem lokiClones_eq_specClones (p : PipelineSpec) :
    lokiClones p = (List.range p.inputRefs.length).map fun j =>
      let input := p.inputRefs.getD j ""
      { name := if p.name ≠ "" ∧ j > 0 then p.name ++ "-" ++ natDecimal j else p.name
        inputRefs := [input]
        outputRefs := p.outputRefs.map fun r =>
          if r = "default" then specTenantOutputName input else r } := by
  unfold lokiClones
  apply List.ext_getElem
  · simp
  · intro j h1 h2
    simp only [List.getElem_map, List.getElem_enum, List.getElem_range]
    have hj : j < p.inputRefs.length := by simpa using h1
    have hget : p.inputRefs.getD j "" = p.inputRefs[j] := List.getD_eq_getElem p.inputRefs "" hj
    simp only [hget]
    congr 1
    apply List.map_congr_left
    intro r _
    rw [specTenantOutputName_eq]
    show (if r ≠ OutputNameDefault then r else _) = (if r = OutputNameDefault then _ else r)
    by_cases hr : r = OutputNameDefault
    · simp [hr]
    · simp [hr]

theorem lokiLoop_snd (ps : List PipelineSpec) :
    ∀ need pls, (lokiLoop ps need pls).2 = pls ++ specFanOut ps := by
  induction ps with
  | nil => intro need pls; simp [lokiLoop, specFanOut]
  | cons p rest ih =>
    intro need pls
    unfold lokiLoop
    have hfan : specFanOut (p :: rest) =
        (if "default" ∈ p.outputRefs then
          (List.range p.inputRefs.length).map (fun j =>
            let input := p.inputRefs.getD j ""
            { name := if p.name ≠ "" ∧ j > 0 then p.name ++ "-" ++ natDecimal j else p.name
              inputRefs := [input]
              outputRefs := p.outputRefs.map fun r =>
                if r = "default" then specTenantOutputName input else r })
         else [p]) ++ specFanOut rest := by
      unfold specFanOut
      rw [List.flatMap_cons]
    by_cases hc : p.outputRefs.contains OutputNameDefault
    · rw [if_pos hc, ih, hfan, if_pos (by simpa [OutputNameDefault] using hc),
        ← lokiClones_eq_specClones, List.append_assoc]
    · rw [if_neg hc, ih, hfan, if_neg (by simpa [OutputNameDefault] using hc),
        List.append_assoc]

theorem lokiLoop_fst_mem (ps : List PipelineSpec) :
    ∀ need pls x, x ∈ (lokiLoop ps need pls).1 ↔
      x ∈ need ∨ ∃ p ∈ ps, p.outputRefs.contains OutputNameDefault ∧ x ∈ p.inputRefs := by
  induction ps with
  | nil => intro need pls x; simp [lokiLoop]
  | cons p rest ih =>
    intro need pls x
    unfold lokiLoop
    by_cases hc : p.outputRefs.contains OutputNameDefault
    · rw [if_pos hc, ih, mem_foldl_insertOnce]
      constructor
      · rintro ((hx | hx) | ⟨q, hq, hqd, hqx⟩)
        · exact Or.inl hx
        · exact Or.inr ⟨p, List.mem_cons_self p rest, hc, hx⟩
        · exact Or.inr ⟨q, List.mem_cons_of_mem p hq, hqd, hqx⟩
      · rintro (hx | ⟨q, hq, hqd, hqx⟩)
        · exact Or.inl (Or.inl hx)
        · rcases List.mem_cons.mp hq with rfl | hq2
          · exact Or.inl (Or.inr hqx)
          · exact Or.inr ⟨q, hq2, hqd, hqx⟩
    · rw [if_neg hc, ih]
      constructor
      · rintro (hx | ⟨q, hq, hqd, hqx⟩)
        · exact Or.inl hx
        · exact Or.inr ⟨q, List.mem_cons_of_mem p hq, hqd, hqx⟩
      · rintro (hx | ⟨q, hq, hqd, hqx⟩)
        · exact Or.inl hx
        · rcases List.mem_cons.mp hq with rfl | hq2
          · exact absurd hqd hc
          · exact Or.inr ⟨q, hq2, hqd, hqx⟩

theorem lokiLoop_fst_nodup (ps : List PipelineSpec) :
    ∀ need pls, need.Nodup → (lokiLoop ps need pls).1.Nodup := by
  induction ps with
  | nil => intro need pls h; simpa [lokiLoop] using h
  | cons p rest ih =>
    intro need pls h
    unfold lokiLoop
    by_cases hc : p.outputRefs.contains OutputNameDefault
    · rw [if_pos hc]
      exact ih _ _ (nodup_foldl_insertOnce p.inputRefs need h)
    · rw [if_neg hc]
      exact ih _ _ h

theorem lokiLoop_pass_through (ps : List PipelineSpec) :
    ∀ need pls, (∀ p ∈ ps, ¬ p.outputRefs.contains OutputNameDefault = true) →
      lokiLoop ps need pls = (need, pls ++ ps) := by
  induction ps with
  | nil => intro need pls _; simp [lokiLoop]
  | cons p rest ih =>
    intro need pls h
    unfold lokiLoop
    rw [if_neg (h p (List.mem_cons_self p rest))]
    rw [ih need (pls ++ [p]) fun q hq => h q (List.mem_cons_of_mem p hq)]
    simp

theorem lokiLoop_snd_no_default (ps : List PipelineSpec) :
    ∀ need pls, (∀ p ∈ pls, ¬ p.outputRefs.contains OutputNameDefault = true) →
      ∀ p ∈ (lokiLoop ps need pls).2, ¬ p.outputRefs.contains OutputNameDefault = true := by
  induction ps with
  | nil => intro need pls h; simpa [lokiLoop] using h
  | cons p rest ih =>
    intro need pls h
    unfold lokiLoop
    by_cases hc : p.outputRefs.contains OutputNameDefault
    · rw [if_pos hc]
      refine ih _ _ ?_
      intro q hq
      rcases List.mem_append.mp hq with hq | hq
      · exact h q hq
      · unfold lokiClones at hq
        rcases List.mem_map.mp hq with ⟨ip, _, rfl⟩
        simp only [List.contains_iff_exists_mem_beq]
        push_neg
        intro r hr
        rcases List.mem_map.mp hr with ⟨r0, _, rfl⟩
        by_cases hr0 : r0 = OutputNameDefault
        · simp only [hr0]
          rw [if_neg (by simp)]
          simpa using Ne.symm (lokiStackOutput_ne_default ip.2)
        · rw [if_pos hr0]
          simpa using Ne.symm hr0
    · rw [if_neg hc]
      refine ih _ _ ?_
      intro q hq
      rcases List.mem_append.mp hq with hq | hq
      · exact h q hq
      · rcases List.mem_singleton.mp hq with rfl
        exact hc

/-! ### Helper lemmas: default-reference resolution -/

theorem NewDefaultOutput_name (d : Option OutputDefaults) :
    (NewDefaultOutput d).name = OutputNameDefault := by
  unfold NewDefaultOutput
  cases d with
  | none => rfl
  | some dd =>
    cases dd with
    | mk es => cases es <;> rfl

theorem mergeDefault_name (d o : OutputSpec) : (mergeDefault d o).name = d.name := by
  unfold mergeDefault
  cases o.elasticsearch <;> rfl

theorem mergeDefault_self (d : OutputSpec) : mergeDefault d d = d := by
  unfold mergeDefault
  cases d with
  | mk n t u s e => cases e <;> rfl

theorem mergeDefault_mergeDefault (d o : OutputSpec) :
    mergeDefault d (mergeDefault d o) = mergeDefault d o := by
  unfold mergeDefault
  cases o with
  | mk n t u s e =>
    cases e with
    | none =>
      show (match d.elasticsearch with
        | some es => { d with elasticsearch := some es }
        | none => d) = d
      cases d with
      | mk dn dt du ds de => cases de <;> rfl
    | some es => rfl

theorem replaceDefaultLoop_cons (o : OutputSpec) (rest : List OutputSpec) (d : OutputSpec) :
    replaceDefaultLoop (o :: rest) d =
      if o.name = OutputNameDefault then
        ((replaceDefaultLoop rest (mergeDefault d o)).1, true,
          mergeDefault d o :: (replaceDefaultLoop rest (mergeDefault d o)).2.2)
      else
        ((replaceDefaultLoop rest d).1, (replaceDefaultLoop rest d).2.1,
          o :: (replaceDefaultLoop rest d).2.2) := rfl

theorem replaceDefaultLoop_noDefault (l : List OutputSpec) :
    ∀ d : OutputSpec, (∀ o ∈ l, ¬ o.name = OutputNameDefault) →
      replaceDefaultLoop l d = (d, false, l) := by
  induction l with
  | nil => intro d _; rfl
  | cons o rest ih =>
    intro d h
    rw [replaceDefaultLoop_cons, if_neg (h o (List.mem_cons_self o rest)),
      ih d fun q hq => h q (List.mem_cons_of_mem o hq)]

theorem replaceDefaultLoop_flagFalse (l : List OutputSpec) :
    ∀ d : OutputSpec, (replaceDefaultLoop l d).2.1 = false →
      ∀ o ∈ l, ¬ o.name = OutputNameDefault := by
  induction l with
  | nil => intro d _ o ho; simp at ho
  | cons o rest ih =>
    intro d hflag q hq
    by_cases ho : o.name = OutputNameDefault
    · exfalso
      rw [replaceDefaultLoop_cons, if_pos ho] at hflag
      simp at hflag
    · rw [replaceDefaultLoop_cons, if_neg ho] at hflag
      rcases List.mem_cons.mp hq with rfl | hq2
      · exact ho
      · exact ih d hflag q hq2

/-- Re-running the replacement loop over its own output, starting from the
same fresh synthesized default, reproduces the same final default, flag and
output list: at every `default`-named position the emitted entry is the
pass-one running default, and absorbing it back yields the same running
default (`mergeDefault d (mergeDefault d o) = mergeDefault d o`). -/
theorem replaceDefaultLoop_replay (l : List OutputSpec) :
    ∀ d : OutputSpec, d.name = OutputNameDefault →
      replaceDefaultLoop (replaceDefaultLoop l d).2.2 d =
        ((replaceDefaultLoop l d).1, (replaceDefaultLoop l d).2.1,
         (replaceDefaultLoop l d).2.2) := by
  induction l with
  | nil => intro d _; rfl
  | cons o rest ih =>
    intro d hd
    by_cases ho : o.name = OutputNameDefault
    · rw [replaceDefaultLoop_cons, if_pos ho]
      show replaceDefaultLoop (mergeDefault d o :: (replaceDefaultLoop rest (mergeDefault d o)).2.2) d = _
      have hename : (mergeDefault d o).name = OutputNameDefault := by
        rw [mergeDefault_name, hd]
      rw [replaceDefaultLoop_cons, if_pos hename, mergeDefault_mergeDefault,
        ih (mergeDefault d o) hename]
    · rw [replaceDefaultLoop_cons, if_neg ho]
      show replaceDefaultLoop (o :: (replaceDefaultLoop rest d).2.2) d = _
      rw [replaceDefaultLoop_cons, if_neg ho, ih d hd]

theorem replaceDefaultLoop_append_default (l : List OutputSpec) :
    ∀ d : OutputSpec, (∀ o ∈ l, ¬ o.name = OutputNameDefault) → d.name = OutputNameDefault →
      replaceDefaultLoop (l ++ [d]) d = (d, true, l ++ [d]) := by
  induction l with
  | nil =>
    intro d _ hd
    show replaceDefaultLoop [d] d = (d, true, [d])
    rw [replaceDefaultLoop_cons, if_pos hd,
      show replaceDefaultLoop [] (mergeDefault d d) = (mergeDefault d d, false, []) from rfl,
      mergeDefault_self]
  | cons o rest ih =>
    intro d h hd
    show replaceDefaultLoop (o :: (rest ++ [d])) d = _
    rw [replaceDefaultLoop_cons, if_neg (h o (List.mem_cons_self o rest)),
      ih d (fun q hq => h q (List.mem_cons_of_mem o hq)) hd]
    rfl

theorem replaceOrAppendDefault_stable (outs : List OutputSpec) (d : OutputSpec)
    (hd : d.name = OutputNameDefault) :
    replaceOrAppendDefault (replaceOrAppendDefault outs d) d =
      replaceOrAppendDefault outs d := by
  unfold replaceOrAppendDefault
  by_cases hrep : (replaceDefaultLoop outs d).2.1 = true
  · rw [if_pos hrep]
    have h21 : (replaceDefaultLoop (replaceDefaultLoop outs d).2.2 d).2.1 = true := by
      rw [replaceDefaultLoop_replay outs d hd]
      exact hrep
    rw [if_pos h21, replaceDefaultLoop_replay outs d hd]
  · rw [if_neg hrep]
    have hflag : (replaceDefaultLoop outs d).2.1 = false := by
      simpa using hrep
    have hnod : ∀ o ∈ outs, ¬ o.name = OutputNameDefault :=
      replaceDefaultLoop_flagFalse outs d hflag
    have houts : replaceDefaultLoop outs d = (d, false, outs) :=
      replaceDefaultLoop_noDefault outs d hnod
    rw [houts]
    show (if (replaceDefaultLoop (outs ++ [d]) d).2.1 = true
      then (replaceDefaultLoop (outs ++ [d]) d).2.2
      else (replaceDefaultLoop (outs ++ [d]) d).2.2 ++ [(replaceDefaultLoop (outs ++ [d]) d).1]) = outs ++ [d]
    rw [replaceDefaultLoop_append_default outs d hnod hd]
    rfl

theorem defaultNameCount_append (a b : List OutputSpec) :
    defaultNameCount (a ++ b) = defaultNameCount a + defaultNameCount b := by
  unfold defaultNameCount
  exact List.countP_append _ a b

theorem replaceDefaultLoop_count (l : List OutputSpec) :
    ∀ d : OutputSpec, d.name = OutputNameDefault →
      defaultNameCount (replaceDefaultLoop l d).2.2 = defaultNameCount l := by
  induction l with
  | nil => intro d _; rfl
  | cons o rest ih =>
    intro d hd
    by_cases ho : o.name = OutputNameDefault
    · rw [replaceDefaultLoop_cons, if_pos ho]
      show defaultNameCount (mergeDefault d o :: (replaceDefaultLoop rest (mergeDefault d o)).2.2) =
        defaultNameCount (o :: rest)
      have h1 : (mergeDefault d o).name = OutputNameDefault := by
        rw [mergeDefault_name, hd]
      have ih2 := ih (mergeDefault d o) h1
      unfold defaultNameCount at ih2 ⊢
      rw [List.countP_cons, List.countP_cons, ih2]
      simp [h1, ho]
    · rw [replaceDefaultLoop_cons, if_neg ho]
      show defaultNameCount (o :: (replaceDefaultLoop rest d).2.2) = defaultNameCount (o :: rest)
      have ih2 := ih d hd
      unfold defaultNameCount at ih2 ⊢
      rw [List.countP_cons, List.countP_cons, ih2]

theorem defaultNameCount_replaceOrAppendDefault (outs : List OutputSpec) (d : OutputSpec)
    (hd : d.name = OutputNameDefault) (h : defaultNameCount outs ≤ 1) :
    defaultNameCount (replaceOrAppendDefault outs d) ≤ 1 := by
  unfold replaceOrAppendDefault
  by_cases hrep : (replaceDefaultLoop outs d).2.1 = true
  · rw [if_pos hrep, replaceDefaultLoop_count outs d hd]
    exact h
  · rw [if_neg hrep]
    have hflag : (replaceDefaultLoop outs d).2.1 = false := by
      simpa using hrep
    have hnod : ∀ o ∈ outs, ¬ o.name = OutputNameDefault :=
      replaceDefaultLoop_flagFalse outs d hflag
    have h0 : defaultNameCount outs = 0 := by
      unfold defaultNameCount
      rw [List.countP_eq_zero]
      intro o ho
      simpa using hnod o ho
    rw [defaultNameCount_append, replaceDefaultLoop_count outs d hd, h0]
    have hl : defaultNameCount [(replaceDefaultLoop outs d).1] ≤ 1 := by
      unfold defaultNameCount
      rw [List.countP_cons, List.countP_nil]
      split <;> omega
    omega

/-! ### Helper lemmas: the migration stages -/

theorem bootstrapStage_none (s : ClusterLogForwarderSpec) : bootstrapStage s none = s := rfl

theorem lokiStage_none (s : ClusterLogForwarderSpec) : lokiStage s none = s := rfl

theorem defaultRefStage_none (s : ClusterLogForwarderSpec) : defaultRefStage s none = s := by
  unfold defaultRefStage
  split <;> rfl

theorem migrateDefaultOutput_none (s : ClusterLogForwarderSpec) :
    MigrateDefaultOutput s none = s := by
  unfold MigrateDefaultOutput
  rw [bootstrapStage_none, lokiStage_none, defaultRefStage_none]

theorem defaultRefStage_pipelines (s : ClusterLogForwarderSpec) (st : Option LogStoreSpec) :
    (defaultRefStage s st).pipelines = s.pipelines := by
  unfold defaultRefStage
  split
  · cases st <;> rfl
  · rfl

theorem defaultRefStage_inputs (s : ClusterLogForwarderSpec) (st : Option LogStoreSpec) :
    (defaultRefStage s st).inputs = s.inputs := by
  unfold defaultRefStage
  split
  · cases st <;> rfl
  · rfl

theorem defaultRefStage_outputDefaults (s : ClusterLogForwarderSpec) (st : Option LogStoreSpec) :
    (defaultRefStage s st).outputDefaults = s.outputDefaults := by
  unfold defaultRefStage
  split
  · cases st <;> rfl
  · rfl

theorem lokiStage_not_loki (s : ClusterLogForwarderSpec) (ls : LogStoreSpec)
    (h : ¬ ls.type = LogStoreTypeLokiStack) : lokiStage s (some ls) = s := by
  simp only [lokiStage]
  rw [if_neg h]

theorem bootstrapStage_not_triggered (s : ClusterLogForwarderSpec) (st : Option LogStoreSpec)
    (h : ¬ (s.pipelines = [] ∧ s.inputs = [] ∧ s.outputs = [] ∧ s.outputDefaults = none)) :
    bootstrapStage s st = s := by
  cases st with
  | none => rfl
  | some ls =>
    simp only [bootstrapStage]
    rw [if_neg h]

theorem lokiStage_no_default_refs (s : ClusterLogForwarderSpec) (ls : LogStoreSpec)
    (h : routesHasOutput s.pipelines OutputNameDefault = false) :
    lokiStage s (some ls) = s := by
  simp only [lokiStage]
  by_cases hl : ls.type = LogStoreTypeLokiStack
  · rw [if_pos hl]
    have hall : ∀ p ∈ s.pipelines, ¬ p.outputRefs.contains OutputNameDefault = true := by
      intro p hp
      have := List.any_eq_false.mp h p hp
      simpa using this
    show { s with outputs := s.outputs ++ (processPipelinesForLokiStack ls OpenshiftNS s).1, pipelines := (processPipelinesForLokiStack ls OpenshiftNS s).2 } = s
    unfold processPipelinesForLokiStack
    rw [lokiLoop_pass_through s.pipelines [] [] hall]
    show { s with outputs := s.outputs ++ sortOutputsByName ([].map (mkLokiOutput ls OpenshiftNS s)), pipelines := s.pipelines } = s
    rw [List.map_nil, show sortOutputsByName [] = [] from rfl, List.append_nil]
  · rw [if_neg hl]

theorem migrate_pipelines_loki_no_default (s : ClusterLogForwarderSpec) (ls : LogStoreSpec)
    (hl : ls.type = LogStoreTypeLokiStack) :
    routesHasOutput (MigrateDefaultOutput s (some ls)).pipelines OutputNameDefault = false := by
  unfold MigrateDefaultOutput
  rw [defaultRefStage_pipelines]
  simp only [lokiStage]
  rw [if_pos hl]
  show (processPipelinesForLokiStack ls OpenshiftNS (bootstrapStage s (some ls))).2.any _ = false
  unfold processPipelinesForLokiStack
  rw [List.any_eq_false]
  intro p hp
  have := lokiLoop_snd_no_default (bootstrapStage s (some ls)).pipelines [] [] (by simp) p hp
  simpa using this

theorem defaultRefStage_no_routes (s : ClusterLogForwarderSpec) (st : Option LogStoreSpec)
    (h : routesHasOutput s.pipelines OutputNameDefault = false) :
    defaultRefStage s st = s := by
  unfold defaultRefStage
  rw [if_neg (by simp [h])]

end Migrations

/-! ### Helper lemmas: the legacy output validation loop -/

namespace Legacy

theorem outputConds_nil_not_dup (lookup : String → SecretLookupResult)
    (refs : List String) (o : OutputSpec) (h : outputConds lookup refs o = []) :
    ¬ refs.contains o.name = true := by
  intro hc
  unfold outputConds outputNameConds at h
  rw [if_pos hc] at h
  simp at h

/-- Characterization of the whole `gatherAndVerifyOutputRefs` loop: one status
per declared output, the accepted outputs are exactly the zero-condition
entries (unchanged, in order), the accepted-name set is their names, and every
status is marked `Accepted` when it has no condition and `Dropped` when it has
any. -/
theorem gatherGo_spec (lookup : String → SecretLookupResult) (outs : List OutputSpec) :
    ∀ (acc : GatherAcc) (i : Nat), ∃ sts : List OutputStatus,
      (gatherGo lookup acc i outs).statuses = acc.statuses ++ sts ∧
      sts.length = outs.length ∧
      (gatherGo lookup acc i outs).outputs = acc.outputs ++
        ((outs.zip sts).filterMap fun oc =>
          if oc.2.conditions = [] then some oc.1 else none) ∧
      (gatherGo lookup acc i outs).refs = acc.refs ++
        (((outs.zip sts).filterMap fun oc =>
          if oc.2.conditions = [] then some oc.1 else none).map fun o => o.name) ∧
      (∀ st ∈ sts, (st.conditions = [] → st.state = OutputStateAccepted) ∧
        (¬ st.conditions = [] → st.state = OutputStateDropped)) := by
  induction outs with
  | nil =>
    intro acc i
    exact ⟨[], by simp [gatherGo], by simp, by simp [gatherGo], by simp [gatherGo], by simp⟩
  | cons o rest ih =>
    intro acc i
    have hred : gatherGo lookup acc i (o :: rest) =
        gatherGo lookup (gatherStep lookup acc i o) (i + 1) rest := rfl
    by_cases hc : outputConds lookup acc.refs o = []
    · have hstep : gatherStep lookup acc i o =
          { refs := acc.refs ++ [o.name]
            outputs := acc.outputs ++ [o]
            statuses := acc.statuses ++
              [{ name := outputDisplayName acc.refs i o, state := OutputStateAccepted,
                 conditions := [] }] } := by
        unfold gatherStep
        rw [if_pos hc, insertOnce_of_not_mem acc.refs o.name (outputConds_nil_not_dup lookup acc.refs o hc)]
      rcases ih (gatherStep lookup acc i o) (i + 1) with ⟨sts, h1, h2, h3, h4, h5⟩
      refine ⟨{ name := outputDisplayName acc.refs i o, state := OutputStateAccepted,
                conditions := [] } :: sts, ?_, by simp [h2], ?_, ?_, ?_⟩
      · rw [hred, h1, hstep]
        simp
      · rw [hred, h3, hstep]
        simp
      · rw [hred, h4, hstep]
        simp
      · intro st hst
        rcases List.mem_cons.mp hst with rfl | hst2
        · exact ⟨fun _ => rfl, fun hne => absurd rfl hne⟩
        · exact h5 st hst2
    · have hstep : gatherStep lookup acc i o =
          { acc with statuses := acc.statuses ++
              [{ name := outputDisplayName acc.refs i o, state := OutputStateDropped,
                 conditions := outputConds lookup acc.refs o }] } := by
        unfold gatherStep
        rw [if_neg hc]
      rcases ih (gatherStep lookup acc i o) (i + 1) with ⟨sts, h1, h2, h3, h4, h5⟩
      refine ⟨{ name := outputDisplayName acc.refs i o, state := OutputStateDropped,
                conditions := outputConds lookup acc.refs o } :: sts, ?_, by simp [h2], ?_, ?_, ?_⟩
      · rw [hred, h1, hstep]
        simp
      · rw [hred, h3, hstep]
        simp [hc]
      · rw [hred, h4, hstep]
        simp [hc]
      · intro st hst
        rcases List.mem_cons.mp hst with rfl | hst2
        · exact ⟨fun hc0 => absurd hc0 hc, fun _ => rfl⟩
        · exact h5 st hst2

end Legacy

/-! ### Claim theorems: the migration pass -/

namespace Migrations

theorem defaultRefStage_routes_true (s : ClusterLogForwarderSpec) (ls : LogStoreSpec)
    (h : routesHasOutput s.pipelines OutputNameDefault = true) :
    defaultRefStage s (some ls) =
      ⟨s.inputs, replaceOrAppendDefault s.outputs (NewDefaultOutput s.outputDefaults),
        s.pipelines, s.outputDefaults⟩ := by
  unfold defaultRefStage
  rw [if_pos h]

/-- C1 counterexample: a pipeline referencing the reserved default output with
no log store configured does NOT abort — the migration returns the input spec
unchanged (there is no error return in the source at all), so a usable
normalized spec (with its pipeline intact) is produced. -/
theorem migrate_nil_logstore_counterexample :
    MigrateDefaultOutput exDefaultRefSpec none = exDefaultRefSpec ∧
    (MigrateDefaultOutput exDefaultRefSpec none).pipelines ≠ [] := by
  constructor
  · decide
  · decide

/-- C1 (amended): with an absent log-store descriptor the migration is the
identity: a pipeline referencing the reserved default output yields no error
(the function has no error result) and the spec is returned unchanged, the
situation being only logged. -/
theorem migrate_nil_logstore_identity :
    ∀ spec : ClusterLogForwarderSpec, MigrateDefaultOutput spec none = spec :=
  fun spec => migrateDefaultOutput_none spec

theorem bootstrapStage_count (s : ClusterLogForwarderSpec) (st : Option LogStoreSpec)
    (h : defaultNameCount s.outputs ≤ 1) :
    defaultNameCount (bootstrapStage s st).outputs ≤ 1 := by
  cases st with
  | none => exact h
  | some ls =>
    simp only [bootstrapStage]
    split
    · show defaultNameCount (if ls.type = LogStoreTypeElasticsearch then [NewDefaultOutput none] else s.outputs) ≤ 1
      split
      · simp only [defaultNameCount, List.countP_cons, List.countP_nil]
        split <;> omega
      · exact h
    · exact h

theorem lokiStage_count (s : ClusterLogForwarderSpec) (st : Option LogStoreSpec)
    (h : defaultNameCount s.outputs ≤ 1) :
    defaultNameCount (lokiStage s st).outputs ≤ 1 := by
  cases st with
  | none => exact h
  | some ls =>
    simp only [lokiStage]
    by_cases hl : ls.type = LogStoreTypeLokiStack
    · rw [if_pos hl]
      show defaultNameCount (s.outputs ++ (processPipelinesForLokiStack ls OpenshiftNS s).1) ≤ 1
      rw [defaultNameCount_append]
      have hz : defaultNameCount (processPipelinesForLokiStack ls OpenshiftNS s).1 = 0 := by
        show defaultNameCount (sortOutputsByName (((lokiLoop s.pipelines [] []).1).map (mkLokiOutput ls OpenshiftNS s))) = 0
        unfold defaultNameCount
        rw [(perm_sortOutputsByName _).countP_eq, List.countP_eq_zero]
        intro o ho
        rcases List.mem_map.mp ho with ⟨x, _, rfl⟩
        simpa [mkLokiOutput] using lokiStackOutput_ne_default x
      omega
    · rw [if_neg hl]
      exact h

theorem defaultRefStage_count (s : ClusterLogForwarderSpec) (st : Option LogStoreSpec)
    (h : defaultNameCount s.outputs ≤ 1) :
    defaultNameCount (defaultRefStage s st).outputs ≤ 1 := by
  unfold defaultRefStage
  split
  · cases st with
    | none => exact h
    | some ls =>
      show defaultNameCount (replaceOrAppendDefault s.outputs (NewDefaultOutput s.outputDefaults)) ≤ 1
      exact defaultNameCount_replaceOrAppendDefault s.outputs _ (NewDefaultOutput_name _) h
  · exact h

/-- C9 counterexample: a spec whose output list already uses the reserved
default name twice passes through the migration with both occurrences kept,
so the migrated output list CAN contain the reserved name more than once. -/
theorem migrate_default_twice_counterexample :
    defaultNameCount (MigrateDefaultOutput exDupDefaultSpec none).outputs = 2 := by
  decide

/-- C9 (amended): the migration never increases the number of outputs named
`default` beyond one — whenever the input spec's output list carries the
reserved default name at most once, so does the migrated list (the
default-reference resolution replaces an existing default output rather than
appending a second one). -/
theorem migrate_default_name_at_most_once (spec : ClusterLogForwarderSpec)
    (logStore : Option LogStoreSpec) (h : defaultNameCount spec.outputs ≤ 1) :
    defaultNameCount (MigrateDefaultOutput spec logStore).outputs ≤ 1 := by
  unfold MigrateDefaultOutput
  exact defaultRefStage_count _ _ (lokiStage_count _ _ (bootstrapStage_count _ _ h))

/-- Witness for the C9 theorem at a concrete input. -/
theorem migrate_default_name_at_most_once_witness :
    defaultNameCount exDefaultRefSpec.outputs ≤ 1 ∧
    defaultNameCount (MigrateDefaultOutput exDefaultRefSpec (some exEsStore)).outputs ≤ 1 :=
  ⟨by decide, migrate_default_name_at_most_once exDefaultRefSpec (some exEsStore) (by decide)⟩

/-- C10 counterexample: the migration is not idempotent.  A spec holding a
single pipeline that references the default output but lists no inputs is
collapsed to the empty spec by the LokiStack fan-out, and a second run then
fires the empty-spec bootstrap, synthesizing new pipelines and outputs. -/
theorem migrate_not_idempotent_counterexample :
    MigrateDefaultOutput (MigrateDefaultOutput exNoInputSpec (some exLokiStore)) (some exLokiStore) ≠
      MigrateDefaultOutput exNoInputSpec (some exLokiStore) := by
  intro hEq
  have h2 : (MigrateDefaultOutput (MigrateDefaultOutput exNoInputSpec (some exLokiStore))
      (some exLokiStore)).pipelines.length = 2 := by decide
  rw [hEq] at h2
  have h0 : (MigrateDefaultOutput exNoInputSpec (some exLokiStore)).pipelines.length = 0 := by
    decide
  rw [h0] at h2
  exact absurd h2 (by decide)

/-- C10 (amended): re-running the migration on its own output with the same
log-store descriptor is the identity except when the first run's result
satisfies the empty-spec bootstrap trigger (everything empty with a store
configured), in which case the bootstrap fires anew. -/
theorem migrate_idempotent_unless_bootstrap_retrigger (spec : ClusterLogForwarderSpec)
    (logStore : Option LogStoreSpec)
    (h : ¬ emptyBootstrapTriggered (MigrateDefaultOutput spec logStore) logStore) :
    MigrateDefaultOutput (MigrateDefaultOutput spec logStore) logStore =
      MigrateDefaultOutput spec logStore := by
  cases logStore with
  | none =>
    rw [migrateDefaultOutput_none spec]
    exact migrateDefaultOutput_none spec
  | some ls =>
    have hb : ¬ ((MigrateDefaultOutput spec (some ls)).pipelines = [] ∧
        (MigrateDefaultOutput spec (some ls)).inputs = [] ∧
        (MigrateDefaultOutput spec (some ls)).outputs = [] ∧
        (MigrateDefaultOutput spec (some ls)).outputDefaults = none) := by
      intro hcon
      exact h ⟨hcon.1, hcon.2.1, hcon.2.2.1, hcon.2.2.2, rfl⟩
    show defaultRefStage (lokiStage (bootstrapStage (MigrateDefaultOutput spec (some ls)) (some ls)) (some ls)) (some ls) = MigrateDefaultOutput spec (some ls)
    rw [bootstrapStage_not_triggered _ _ hb]
    by_cases hl : ls.type = LogStoreTypeLokiStack
    · have hro := migrate_pipelines_loki_no_default spec ls hl
      rw [lokiStage_no_default_refs _ ls hro, defaultRefStage_no_routes _ _ hro]
    · rw [lokiStage_not_loki _ ls hl]
      by_cases hr : routesHasOutput (lokiStage (bootstrapStage spec (some ls)) (some ls)).pipelines OutputNameDefault = true
      · have hM : MigrateDefaultOutput spec (some ls) =
            defaultRefStage (lokiStage (bootstrapStage spec (some ls)) (some ls)) (some ls) := rfl
        rw [hM]
        generalize hw : lokiStage (bootstrapStage spec (some ls)) (some ls) = w at hr ⊢
        rw [defaultRefStage_routes_true w ls hr]
        have hr2 : routesHasOutput (ClusterLogForwarderSpec.mk w.inputs
            (replaceOrAppendDefault w.outputs (NewDefaultOutput w.outputDefaults))
            w.pipelines w.outputDefaults).pipelines OutputNameDefault = true := hr
        rw [defaultRefStage_routes_true _ ls hr2]
        congr 1
        exact replaceOrAppendDefault_stable _ _ (NewDefaultOutput_name _)
      · have hfalse : routesHasOutput (lokiStage (bootstrapStage spec (some ls)) (some ls)).pipelines OutputNameDefault = false := by
          simpa using hr
        have hM : MigrateDefaultOutput spec (some ls) =
            defaultRefStage (lokiStage (bootstrapStage spec (some ls)) (some ls)) (some ls) := rfl
        rw [hM, defaultRefStage_no_routes _ _ hfalse, defaultRefStage_no_routes _ _ hfalse]

/-- Witness for the C10 theorem at a concrete input. -/
theorem migrate_idempotent_unless_bootstrap_retrigger_witness :
    ¬ emptyBootstrapTriggered (MigrateDefaultOutput {} (some exEsStore)) (some exEsStore) ∧
    MigrateDefaultOutput (MigrateDefaultOutput {} (some exEsStore)) (some exEsStore) =
      MigrateDefaultOutput {} (some exEsStore) :=
  ⟨by decide, migrate_idempotent_unless_bootstrap_retrigger {} (some exEsStore) (by decide)⟩

/-- C5: under a multi-tenant log store the fanned-out pipeline list is
exactly the spec's description — pipelines not referencing the reserved
default output pass through unchanged, and a referencing pipeline yields one
clone per `inputRefs` entry in declaration order, restricted to that single
input, with every reserved-default ref rewritten to the deterministic
per-tenant output name and all other refs untouched. -/
theorem lokistack_fanout_refines_spec (ls : LogStoreSpec) (ns : String)
    (spec : ClusterLogForwarderSpec) :
    (processPipelinesForLokiStack ls ns spec).2 = specFanOut spec.pipelines := by
  show (lokiLoop spec.pipelines [] []).2 = specFanOut spec.pipelines
  rw [lokiLoop_snd, List.nil_append]

/-- C6: a named pipeline's clones carry the names
`name, name-1, name-2, …` (clone `j > 0` is renamed `name-j`), and these
names are pairwise distinct. -/
theorem fanout_clone_names (p : PipelineSpec) (h : p.name ≠ "") :
    ((lokiClones p).map fun q => q.name) =
      ((List.range p.inputRefs.length).map fun j =>
        if j = 0 then p.name else p.name ++ "-" ++ natDecimal j) ∧
    ((lokiClones p).map fun q => q.name).Nodup := by
  have hnames : ((lokiClones p).map fun q => q.name) =
      ((List.range p.inputRefs.length).map fun j =>
        if j = 0 then p.name else p.name ++ "-" ++ natDecimal j) := by
    rw [lokiClones_eq_specClones, List.map_map]
    apply List.map_congr_left
    intro j _
    show (if p.name ≠ "" ∧ j > 0 then p.name ++ "-" ++ natDecimal j else p.name) =
      if j = 0 then p.name else p.name ++ "-" ++ natDecimal j
    by_cases hj : j = 0
    · subst hj
      rw [if_neg (by simp), if_pos rfl]
    · rw [if_pos ⟨h, Nat.pos_of_ne_zero hj⟩, if_neg hj]
  refine ⟨hnames, ?_⟩
  rw [hnames]
  have hinj : Function.Injective fun j =>
      if j = 0 then p.name else p.name ++ "-" ++ natDecimal j := by
    intro a b hab
    simp only at hab
    have hlen : ∀ m : Nat, m ≠ 0 → p.name.length < (p.name ++ "-" ++ natDecimal m).length := by
      intro m _
      rw [String.length_append, String.length_append]
      have hd : 0 < (natDecimal m).length := natDecimal_length_pos m
      have h1 : ("-" : String).length = 1 := by decide
      omega
    by_cases ha : a = 0
    · by_cases hb : b = 0
      · rw [ha, hb]
      · rw [if_pos ha, if_neg hb] at hab
        have := hlen b hb
        rw [← hab] at this
        omega
    · by_cases hb : b = 0
      · rw [if_neg ha, if_pos hb] at hab
        have := hlen a ha
        rw [hab] at this
        omega
      · rw [if_neg ha, if_neg hb] at hab
        have hdata := congrArg String.data hab
        simp only [String.data_append, List.append_assoc] at hdata
        have hdec : natDecimal a = natDecimal b :=
          String.ext (List.append_cancel_left (List.append_cancel_left hdata))
        exact natDecimal_pos_inj a b ha hb hdec
  exact (List.nodup_range _).map hinj

/-- Witness for the C6 theorem at a concrete input. -/
theorem fanout_clone_names_witness :
    exNamedPipe.name ≠ "" ∧
    (((lokiClones exNamedPipe).map fun q => q.name) =
      ((List.range exNamedPipe.inputRefs.length).map fun j =>
        if j = 0 then exNamedPipe.name else exNamedPipe.name ++ "-" ++ natDecimal j) ∧
     ((lokiClones exNamedPipe).map fun q => q.name).Nodup) :=
  ⟨by decide, fanout_clone_names exNamedPipe (by decide)⟩

/-- C7 counterexample: a tenant that resolves to no built-in kind is NOT
skipped — the migrated spec still contains a synthesized output for it, named
`default-<input>` with type Loki and an empty URL. -/
theorem unresolvable_tenant_counterexample :
    (MigrateDefaultOutput exUnresolvableSpec (some exLokiStore)).outputs =
      [{ name := "default-myinput", type := OutputTypeLoki, url := "" }] := by
  decide

/-- C7 (amended): under a multi-tenant log store an input referenced by a
default-referencing pipeline whose tenant does not resolve to a built-in kind
still produces a synthesized output in the migrated spec — named by the
deterministic tenant name, typed Loki, but with an empty URL (the URL builder
logs a diagnostic and returns the empty string for such tenants). -/
theorem unresolvable_tenant_still_emits_output (ls : LogStoreSpec)
    (spec : ClusterLogForwarderSpec) (input : String)
    (hl : ls.type = LogStoreTypeLokiStack)
    (href : ∃ p ∈ spec.pipelines, p.outputRefs.contains OutputNameDefault = true ∧ input ∈ p.inputRefs)
    (hun : ¬ ReservedInputNames.contains (getInputTypeFromName spec input) = true) :
    mkLokiOutput ls OpenshiftNS spec input =
      { name := lokiStackOutput input, type := OutputTypeLoki, url := "" } ∧
    mkLokiOutput ls OpenshiftNS spec input ∈ (MigrateDefaultOutput spec (some ls)).outputs := by
  have hurl : LokiStackURL (some ls) OpenshiftNS (getInputTypeFromName spec input) = "" := by
    unfold LokiStackURL
    by_cases hs : LokiStackGatewayService (some ls) = ""
    · rw [if_pos hs]
    · rw [if_neg hs, if_pos hun]
  have hpl : ¬ (spec.pipelines = [] ∧ spec.inputs = [] ∧ spec.outputs = [] ∧
      spec.outputDefaults = none) := by
    rintro ⟨hnil, -, -, -⟩
    rcases href with ⟨p, hp, -, -⟩
    rw [hnil] at hp
    simp at hp
  have hboot : bootstrapStage spec (some ls) = spec := bootstrapStage_not_triggered _ _ hpl
  have hro : routesHasOutput (lokiStage spec (some ls)).pipelines OutputNameDefault = false := by
    have h1 := migrate_pipelines_loki_no_default spec ls hl
    rw [show (MigrateDefaultOutput spec (some ls)).pipelines =
      (lokiStage (bootstrapStage spec (some ls)) (some ls)).pipelines from
        defaultRefStage_pipelines _ _] at h1
    rw [hboot] at h1
    exact h1
  have hM : MigrateDefaultOutput spec (some ls) = lokiStage spec (some ls) := by
    show defaultRefStage (lokiStage (bootstrapStage spec (some ls)) (some ls)) (some ls) = _
    rw [hboot]
    exact defaultRefStage_no_routes _ _ hro
  constructor
  · show ({ name := lokiStackOutput input, type := OutputTypeLoki, url := LokiStackURL (some ls) OpenshiftNS (getInputTypeFromName spec input) } : OutputSpec) = _
    rw [hurl]
  · rw [hM]
    simp only [lokiStage]
    rw [if_pos hl]
    show mkLokiOutput ls OpenshiftNS spec input ∈
      spec.outputs ++ (processPipelinesForLokiStack ls OpenshiftNS spec).1
    apply List.mem_append_right
    show mkLokiOutput ls OpenshiftNS spec input ∈
      sortOutputsByName ((lokiLoop spec.pipelines [] []).1.map (mkLokiOutput ls OpenshiftNS spec))
    rw [(perm_sortOutputsByName _).mem_iff]
    apply List.mem_map_of_mem
    rw [lokiLoop_fst_mem]
    right
    exact href

/-- Witness for the C7 theorem at a concrete input. -/
theorem unresolvable_tenant_still_emits_output_witness :
    exLokiStore.type = LogStoreTypeLokiStack ∧
    (∃ p ∈ exUnresolvableSpec.pipelines,
      p.outputRefs.contains OutputNameDefault = true ∧ "myinput" ∈ p.inputRefs) ∧
    ¬ ReservedInputNames.contains (getInputTypeFromName exUnresolvableSpec "myinput") = true ∧
    (mkLokiOutput exLokiStore OpenshiftNS exUnresolvableSpec "myinput" =
      { name := lokiStackOutput "myinput", type := OutputTypeLoki, url := "" } ∧
     mkLokiOutput exLokiStore OpenshiftNS exUnresolvableSpec "myinput" ∈
      (MigrateDefaultOutput exUnresolvableSpec (some exLokiStore)).outputs) :=
  ⟨by decide, by decide, by decide,
   unresolvable_tenant_still_emits_output exLokiStore exUnresolvableSpec "myinput"
     (by decide) (by decide) (by decide)⟩

/-- C8: under a multi-tenant log store the synthesized output list contains
exactly one output per distinct referenced input of the default-referencing
pipelines, is sorted ascending by name, every output is typed Loki, and the
output of a tenant resolving to a built-in kind carries the URL
`https://<lokistack-name>-gateway-http.<namespace>.svc:8080/api/logs/v1/<tenant>`. -/
theorem loki_tenant_outputs_sorted (ls : LogStoreSpec) (ns : String)
    (spec : ClusterLogForwarderSpec) (hname : ls.lokiStack.name ≠ "") :
    List.Perm (processPipelinesForLokiStack ls ns spec).1
      ((lokiLoop spec.pipelines [] []).1.map (mkLokiOutput ls ns spec)) ∧
    (lokiLoop spec.pipelines [] []).1.Nodup ∧
    (∀ x, x ∈ (lokiLoop spec.pipelines [] []).1 ↔
      ∃ p ∈ spec.pipelines, p.outputRefs.contains OutputNameDefault = true ∧ x ∈ p.inputRefs) ∧
    (processPipelinesForLokiStack ls ns spec).1.Pairwise (fun a b => a.name ≤ b.name) ∧
    (∀ o ∈ (processPipelinesForLokiStack ls ns spec).1, o.type = OutputTypeLoki) ∧
    (∀ x, ReservedInputNames.contains (getInputTypeFromName spec x) = true →
      (mkLokiOutput ls ns spec x).url =
        "https://" ++ ls.lokiStack.name ++ "-gateway-http." ++ ns ++ ".svc:8080/api/logs/v1/" ++
          getInputTypeFromName spec x) := by
  have hserv : LokiStackGatewayService (some ls) = ls.lokiStack.name ++ "-gateway-http" := by
    simp only [LokiStackGatewayService]
    rw [if_neg hname]
  have hservne : ¬ LokiStackGatewayService (some ls) = "" := by
    rw [hserv]
    intro hcon
    have hlen := congrArg String.length hcon
    rw [String.length_append] at hlen
    have h13 : ("-gateway-http" : String).length = 13 := by decide
    rw [h13] at hlen
    simp at hlen
  refine ⟨?_, ?_, ?_, ?_, ?_, ?_⟩
  · show List.Perm (sortOutputsByName ((lokiLoop spec.pipelines [] []).1.map (mkLokiOutput ls ns spec))) _
    exact perm_sortOutputsByName _
  · exact lokiLoop_fst_nodup spec.pipelines [] [] List.nodup_nil
  · intro x
    rw [lokiLoop_fst_mem]
    simp
  · exact sorted_sortOutputsByName _
  · intro o ho
    have hp : o ∈ (lokiLoop spec.pipelines [] []).1.map (mkLokiOutput ls ns spec) :=
      (perm_sortOutputsByName _).mem_iff.mp ho
    rcases List.mem_map.mp hp with ⟨x, -, rfl⟩
    rfl
  · intro x hx
    show LokiStackURL (some ls) ns (getInputTypeFromName spec x) = _
    unfold LokiStackURL
    rw [if_neg hservne, if_neg (not_not_intro hx), hserv]
    apply String.ext
    simp [String.data_append]

/-- Witness for the C8 theorem at a concrete input. -/
theorem loki_tenant_outputs_sorted_witness :
    exLokiStore.lokiStack.name ≠ "" ∧
    (List.Perm (processPipelinesForLokiStack exLokiStore "ns" exDefaultRefSpec).1
      ((lokiLoop exDefaultRefSpec.pipelines [] []).1.map (mkLokiOutput exLokiStore "ns" exDefaultRefSpec)) ∧
     (lokiLoop exDefaultRefSpec.pipelines [] []).1.Nodup ∧
     (∀ x, x ∈ (lokiLoop exDefaultRefSpec.pipelines [] []).1 ↔
       ∃ p ∈ exDefaultRefSpec.pipelines, p.outputRefs.contains OutputNameDefault = true ∧ x ∈ p.inputRefs) ∧
     (processPipelinesForLokiStack exLokiStore "ns" exDefaultRefSpec).1.Pairwise (fun a b => a.name ≤ b.name) ∧
     (∀ o ∈ (processPipelinesForLokiStack exLokiStore "ns" exDefaultRefSpec).1, o.type = OutputTypeLoki) ∧
     (∀ x, ReservedInputNames.contains (getInputTypeFromName exDefaultRefSpec x) = true →
       (mkLokiOutput exLokiStore "ns" exDefaultRefSpec x).url =
         "https://" ++ exLokiStore.lokiStack.name ++ "-gateway-http." ++ "ns" ++ ".svc:8080/api/logs/v1/" ++
           getInputTypeFromName exDefaultRefSpec x)) :=
  ⟨by decide, loki_tenant_outputs_sorted exLokiStore "ns" exDefaultRefSpec (by decide)⟩

end Migrations

/-! ### Claim theorems: the legacy normalization -/

namespace Legacy

/-- C2: the empty forwarding spec together with an Elasticsearch log store is
normalized into exactly two pipelines — the application source and the
infrastructure source, each routed to the reserved internal default output —
plus exactly one synthesized default output whose type matches the store. -/
theorem empty_spec_es_bootstrap (enabled : Bool) (lookup : String → SecretLookupResult) :
    (normalizeLogForwarding (some LogStoreTypeElasticsearch) enabled true lookup {}).pipelines =
      [{ name := DefaultAppPipelineName, sourceType := LogSourceTypeApp, outputRefs := [InternalOutputName] },
       { name := DefaultInfraPipelineName, sourceType := LogSourceTypeInfra, outputRefs := [InternalOutputName] }] ∧
    (normalizeLogForwarding (some LogStoreTypeElasticsearch) enabled true lookup {}).outputs =
      [{ name := InternalOutputName, type := OutputTypeElasticsearch, endpoint := LogStoreService, secret := some { name := CollectorSecretName } }] := by
  have hb : normalizeLogForwarding (some LogStoreTypeElasticsearch) enabled true lookup {} =
      bootstrapForwardingSpec := by
    unfold normalizeLogForwarding
    rw [if_pos (by decide)]
  rw [hb]
  exact ⟨rfl, rfl⟩

theorem pipelineResolvedStatus_state_dropped (outNames : List String) (dname : String)
    (p : PipelineSpec) (hk : (p.outputRefs.filter fun r => outNames.contains r) = []) :
    (pipelineResolvedStatus outNames dname p).state = PipelineStateDropped := by
  unfold pipelineResolvedStatus
  rw [if_pos hk]

theorem pipelineResolvedStatus_state_kept (outNames : List String) (dname : String)
    (p : PipelineSpec) (hk : ¬ (p.outputRefs.filter fun r => outNames.contains r) = []) :
    (pipelineResolvedStatus outNames dname p).state = PipelineStateAccepted ∨
    (pipelineResolvedStatus outNames dname p).state = PipelineStateDegraded := by
  unfold pipelineResolvedStatus
  rw [if_neg hk]
  by_cases hdeg : (p.outputRefs.filter fun r => outNames.contains r).length ≠ p.outputRefs.length
  · right
    rw [if_pos hdeg]
  · left
    rw [if_neg hdeg]

/-- C3: a declared pipeline that passes the name and source checks is kept
iff the order-preserving intersection of its declared `outputRefs` with the
accepted-output name set is non-empty; when kept, the normalized pipeline's
refs are exactly that intersection and its status is Accepted or Degraded;
when the intersection is empty, the pipeline's status is Dropped and the
normalized list is unchanged. -/
theorem pipeline_refs_exact_intersection (outNames : List String) (acc : PipeAcc)
    (i : Nat) (p : PipelineSpec) (h : pipelinePreConds acc.names p = []) :
    ((p.outputRefs.filter fun r => outNames.contains r) = [] →
      (pipelineStep outNames acc i p).pipelines = acc.pipelines ∧
      (pipelineStep outNames acc i p).statuses = acc.statuses ++
        [pipelineResolvedStatus outNames (pipelineDisplayName acc.names i p) p] ∧
      (pipelineResolvedStatus outNames (pipelineDisplayName acc.names i p) p).state =
        PipelineStateDropped) ∧
    (¬ (p.outputRefs.filter fun r => outNames.contains r) = [] →
      (pipelineStep outNames acc i p).pipelines = acc.pipelines ++
        [{ name := p.name, sourceType := p.sourceType, outputRefs := p.outputRefs.filter fun r => outNames.contains r }] ∧
      (pipelineStep outNames acc i p).statuses = acc.statuses ++
        [pipelineResolvedStatus outNames (pipelineDisplayName acc.names i p) p] ∧
      ((pipelineResolvedStatus outNames (pipelineDisplayName acc.names i p) p).state =
        PipelineStateAccepted ∨
       (pipelineResolvedStatus outNames (pipelineDisplayName acc.names i p) p).state =
        PipelineStateDegraded)) := by
  constructor
  · intro hk
    refine ⟨?_, ?_, pipelineResolvedStatus_state_dropped outNames _ p hk⟩
    · unfold pipelineStep
      rw [if_pos h, if_pos hk]
    · unfold pipelineStep
      rw [if_pos h, if_pos hk]
  · intro hk
    refine ⟨?_, ?_, pipelineResolvedStatus_state_kept outNames _ p hk⟩
    · unfold pipelineStep
      rw [if_pos h, if_neg hk]
    · unfold pipelineStep
      rw [if_pos h, if_neg hk]

/-- Witness for the C3 theorem at a concrete input. -/
theorem pipeline_refs_exact_intersection_witness :
    pipelinePreConds (PipeAcc.names {}) { name := "p1", sourceType := LogSourceTypeApp, outputRefs := ["o1", "bogus"] } = [] ∧
    ((((({ name := "p1", sourceType := LogSourceTypeApp, outputRefs := ["o1", "bogus"] } : PipelineSpec).outputRefs.filter fun r => (["o1"] : List String).contains r) = []) →
      (pipelineStep ["o1"] {} 0 { name := "p1", sourceType := LogSourceTypeApp, outputRefs := ["o1", "bogus"] }).pipelines = PipeAcc.pipelines {} ∧
      (pipelineStep ["o1"] {} 0 { name := "p1", sourceType := LogSourceTypeApp, outputRefs := ["o1", "bogus"] }).statuses = PipeAcc.statuses {} ++
        [pipelineResolvedStatus ["o1"] (pipelineDisplayName (PipeAcc.names {}) 0 { name := "p1", sourceType := LogSourceTypeApp, outputRefs := ["o1", "bogus"] }) { name := "p1", sourceType := LogSourceTypeApp, outputRefs := ["o1", "bogus"] }] ∧
      (pipelineResolvedStatus ["o1"] (pipelineDisplayName (PipeAcc.names {}) 0 { name := "p1", sourceType := LogSourceTypeApp, outputRefs := ["o1", "bogus"] }) { name := "p1", sourceType := LogSourceTypeApp, outputRefs := ["o1", "bogus"] }).state = PipelineStateDropped) ∧
    (¬ ((({ name := "p1", sourceType := LogSourceTypeApp, outputRefs := ["o1", "bogus"] } : PipelineSpec).outputRefs.filter fun r => (["o1"] : List String).contains r) = []) →
      (pipelineStep ["o1"] {} 0 { name := "p1", sourceType := LogSourceTypeApp, outputRefs := ["o1", "bogus"] }).pipelines = PipeAcc.pipelines {} ++
        [{ name := ({ name := "p1", sourceType := LogSourceTypeApp, outputRefs := ["o1", "bogus"] } : PipelineSpec).name, sourceType := ({ name := "p1", sourceType := LogSourceTypeApp, outputRefs := ["o1", "bogus"] } : PipelineSpec).sourceType, outputRefs := ({ name := "p1", sourceType := LogSourceTypeApp, outputRefs := ["o1", "bogus"] } : PipelineSpec).outputRefs.filter fun r => (["o1"] : List String).contains r }] ∧
      (pipelineStep ["o1"] {} 0 { name := "p1", sourceType := LogSourceTypeApp, outputRefs := ["o1", "bogus"] }).statuses = PipeAcc.statuses {} ++
        [pipelineResolvedStatus ["o1"] (pipelineDisplayName (PipeAcc.names {}) 0 { name := "p1", sourceType := LogSourceTypeApp, outputRefs := ["o1", "bogus"] }) { name := "p1", sourceType := LogSourceTypeApp, outputRefs := ["o1", "bogus"] }] ∧
      ((pipelineResolvedStatus ["o1"] (pipelineDisplayName (PipeAcc.names {}) 0 { name := "p1", sourceType := LogSourceTypeApp, outputRefs := ["o1", "bogus"] }) { name := "p1", sourceType := LogSourceTypeApp, outputRefs := ["o1", "bogus"] }).state = PipelineStateAccepted ∨
       (pipelineResolvedStatus ["o1"] (pipelineDisplayName (PipeAcc.names {}) 0 { name := "p1", sourceType := LogSourceTypeApp, outputRefs := ["o1", "bogus"] }) { name := "p1", sourceType := LogSourceTypeApp, outputRefs := ["o1", "bogus"] }).state = PipelineStateDegraded))) :=
  ⟨by decide,
   pipeline_refs_exact_intersection ["o1"] {} 0
     { name := "p1", sourceType := LogSourceTypeApp, outputRefs := ["o1", "bogus"] } (by decide)⟩

/-- C4: an output appears in the accepted-outputs list iff its status record
has zero conditions; accepted outputs are copied unchanged in original
declaration order, the accepted-name set is exactly their names, and each
status is marked `Accepted` when it has zero conditions and `Dropped` when it
has any condition. -/
theorem outputs_accepted_iff_no_conditions (lookup : String → SecretLookupResult)
    (outs : List OutputSpec) :
    (gatherAndVerifyOutputRefs lookup outs).statuses.length = outs.length ∧
    (gatherAndVerifyOutputRefs lookup outs).outputs =
      ((outs.zip (gatherAndVerifyOutputRefs lookup outs).statuses).filterMap fun oc =>
        if oc.2.conditions = [] then some oc.1 else none) ∧
    ((gatherAndVerifyOutputRefs lookup outs).refs =
      (gatherAndVerifyOutputRefs lookup outs).outputs.map fun o => o.name) ∧
    ∀ st ∈ (gatherAndVerifyOutputRefs lookup outs).statuses,
      (st.conditions = [] → st.state = OutputStateAccepted) ∧
      (¬ st.conditions = [] → st.state = OutputStateDropped) := by
  rcases gatherGo_spec lookup outs {} 0 with ⟨sts, h1, h2, h3, h4, h5⟩
  have e : gatherAndVerifyOutputRefs lookup outs = gatherGo lookup {} 0 outs := rfl
  rw [e, h1, h3, h4]
  refine ⟨by simpa using h2, by simp, by simp, ?_⟩
  intro st hst
  exact h5 st (by simpa using hst)

end Legacy

